import Mathlib

/-!
Verification of the kinetic-scrolling engine of `hildon-pannable-area.c`
(libhildon).  The C code is shallowly embedded below: GTK adjustments
become a record of rationals, `gdouble` arithmetic becomes exact rational
arithmetic, `gint` fields that receive `gdouble` values are modelled with
explicit truncation toward zero (the C conversion), and timer / signal
side effects become explicit return values.
-/

namespace Hildon

/-! ### Basic model of GTK adjustments and glib helpers -/

/-- A GTK adjustment: current value, range bounds and page size. -/
structure Adj where
  value : ℚ
  lower : ℚ
  upper : ℚ
  pageSize : ℚ
deriving DecidableEq, Repr

/-- The glib `CLAMP (x, lo, hi)` macro:
`((x) > (hi)) ? (hi) : (((x) < (lo)) ? (lo) : (x))`. -/
def gclamp (x lo hi : ℚ) : ℚ :=
  if x > hi then hi else if x < lo then lo else x

/-- Conversion of a C `double` to a C `int`: truncation toward zero. -/
def truncInt (q : ℚ) : ℤ :=
  if 0 ≤ q then ⌊q⌋ else ⌈q⌉

/-- `gtk_adjustment_set_value` (GTK3 semantics): the stored value is
clamped to `[lower, upper - page_size]` (`MIN` with the top, then `MAX`
with the bottom). -/
def gtk_adjustment_set_value (adj : Adj) (v : ℚ) : Adj :=
  { adj with value := max adj.lower (min v (adj.upper - adj.pageSize)) }

/-- `#define RATIO_TOLERANCE 0.000001` (hildon-pannable-area.c:57). -/
def ratio_tolerance : ℚ := 1 / 1000000

/-! ### `hildon_pannable_area_calculate_velocity` (lines 1681-1699)

Auto-mode velocity update: blend the raw velocity `dist/|delta| * force`
into the running velocity with inertia, then clamp to `[-vmax, vmax]`
(the code writes the clamp as `v > 0 ? MIN (v, vmax) : MAX (v, -vmax)`).
Distances below `RATIO_TOLERANCE` leave the velocity untouched. -/

def hildon_pannable_area_calculate_velocity
    (vel delta dist vmax drag_inertia force : ℚ) : ℚ :=
  if |dist| ≥ ratio_tolerance then
    let rawvel := (dist / |delta|) * force
    let v := vel * (1 - drag_inertia) + rawvel * drag_inertia
    if v > 0 then min v vmax else max v (-1 * vmax)
  else vel

/-- Clamp to an interval written the way the spec states it
("clamped to `[-vmax, vmax]`"), used to compare with the code. -/
def clampSpec (lo hi v : ℚ) : ℚ := max lo (min hi v)

/-! ### `hildon_pannable_area_set_value_internal` and
`hildon_pannable_area_scroll_to` (lines 2564-2707)

State of the smooth-scroll animation machinery used by the public
`scroll_to` entry point.  `tick_id` stands for the frame-clock "update"
callback being connected (`begin_updating` / `end_updating`). -/

structure SVState where
  hadj : Adj
  vadj : Adj
  duration : ℕ
  hasClock : Bool
  tick_id : Bool
  hsource : ℚ
  htarget : ℚ
  vsource : ℚ
  vtarget : ℚ
  start_time : ℕ
  end_time : ℕ
deriving DecidableEq, Repr

/-- `hildon_pannable_area_set_value_internal` (lines 2564-2618): a value
of `-1` on an axis keeps that adjustment's current value, otherwise the
value is taken `MIN` the top of the range then `MAX` the bottom; with
`animate`, a nonzero duration and a frame clock the target is handed to
the frame-clock animation, otherwise it is applied immediately. -/
def hildon_pannable_area_set_value_internal
    (st : SVState) (hvalue vvalue : ℚ) (animate : Bool)
    (frame_time : ℕ) : SVState :=
  let vvalue := if vvalue = -1 then st.vadj.value
    else max (min vvalue (st.vadj.upper - st.vadj.pageSize)) st.vadj.lower
  let hvalue := if hvalue = -1 then st.hadj.value
    else max (min hvalue (st.hadj.upper - st.hadj.pageSize)) st.hadj.lower
  if animate ∧ st.duration ≠ 0 ∧ st.hasClock then
    if st.tick_id ∧ st.htarget = hvalue ∧ st.vtarget = vvalue then st
    else
      { st with
        vsource := st.vadj.value, vtarget := vvalue,
        hsource := st.hadj.value, htarget := hvalue,
        start_time := frame_time,
        end_time := frame_time + 1000 * st.duration,
        tick_id := true }
  else
    { st with
      tick_id := false,
      vadj := gtk_adjustment_set_value st.vadj vvalue,
      hadj := gtk_adjustment_set_value st.hadj hvalue }

/-- `hildon_pannable_area_scroll_to` (lines 2662-2707): returns without
acting when no axis is scrollable or both coordinates are `-1`;
otherwise clamps `x - page/2` and `y - page/2` into each range and hands
both to `set_value_internal` with `animate = TRUE`.  Note that the
clamping happens before `set_value_internal` sees the values, so a `-1`
coordinate reaches it already clamped into the range. -/
def hildon_pannable_area_scroll_to
    (st : SVState) (x y : ℤ) (frame_time : ℕ) : SVState :=
  let vscroll_visible := st.vadj.upper - st.vadj.lower > st.vadj.pageSize
  let hscroll_visible := st.hadj.upper - st.hadj.lower > st.hadj.pageSize
  if (¬vscroll_visible ∧ ¬hscroll_visible) ∨ (x = -1 ∧ y = -1) then st
  else
    let scroll_to_x := gclamp ((x : ℚ) - st.hadj.pageSize / 2)
      st.hadj.lower (st.hadj.upper - st.hadj.pageSize)
    let scroll_to_y := gclamp ((y : ℚ) - st.vadj.pageSize / 2)
      st.vadj.lower (st.vadj.upper - st.vadj.pageSize)
    hildon_pannable_area_set_value_internal st scroll_to_x scroll_to_y
      true frame_time

/-! ### `hildon_pannable_axis_scroll` (lines 1419-1554)

One axis of the deceleration / overshoot simulator.  The C function
mutates the adjustment plus the by-reference `vel`, `overshooting`,
`overshot_dist`, `scroll_to` and `s`; we bundle those in `Axis` and
return the new bundle together with the `s` flag.  `overshot_dist` and
`overshooting` are C `gint`s: assigning a `double` expression to
`overshot_dist` truncates toward zero (`truncInt`). -/

structure Axis where
  adj : Adj
  vel : ℚ
  overshooting : ℕ
  overshot_dist : ℤ
  scroll_to : ℚ
deriving DecidableEq, Repr

/-- The `!(*overshooting)` branch of `hildon_pannable_axis_scroll`
(lines 1439-1485): boundary handling with overshoot initiation, the
scroll-to target check, and the final `gtk_adjustment_set_value`. -/
def axis_scroll_no_overshoot (vmax_overshooting : ℚ) (overshoot_max : ℤ)
    (a : Axis) (inc : ℚ) (s : Bool) : Axis × Bool :=
  let dist := a.adj.value - inc
  if dist < a.adj.lower then
    if overshoot_max ≠ 0 then
      ({ a with
         adj := gtk_adjustment_set_value a.adj a.adj.lower,
         overshooting := 1,
         scroll_to := -1,
         overshot_dist := truncInt (gclamp ((a.overshot_dist : ℚ) + a.vel)
           0 (overshoot_max : ℚ)),
         vel := min vmax_overshooting a.vel }, false)
    else
      ({ a with
         adj := gtk_adjustment_set_value a.adj a.adj.lower,
         vel := 0, scroll_to := -1 }, false)
  else if dist > a.adj.upper - a.adj.pageSize then
    if overshoot_max ≠ 0 then
      ({ a with
         adj := gtk_adjustment_set_value a.adj (a.adj.upper - a.adj.pageSize),
         overshooting := 1,
         scroll_to := -1,
         overshot_dist := truncInt (gclamp ((a.overshot_dist : ℚ) + a.vel)
           (-(overshoot_max : ℚ)) 0),
         vel := max (-vmax_overshooting) a.vel }, false)
    else
      ({ a with
         adj := gtk_adjustment_set_value a.adj (a.adj.upper - a.adj.pageSize),
         vel := 0, scroll_to := -1 }, false)
  else
    if a.scroll_to ≠ -1 ∧
        ((inc < 0 ∧ a.scroll_to ≤ dist) ∨ (inc > 0 ∧ a.scroll_to ≥ dist)) then
      ({ a with
         adj := gtk_adjustment_set_value a.adj a.scroll_to,
         scroll_to := -1, vel := 0 }, s)
    else
      ({ a with adj := gtk_adjustment_set_value a.adj dist }, s)

/-- The released bounce-back branch of `hildon_pannable_axis_scroll`
(lines 1487-1532): push deeper for up to `bounce_steps` steps, then
reverse with a floor magnitude of 10, walking `overshot_dist` back to 0;
at 0 the counter resets and the velocity zeroes. -/
def axis_scroll_bounce (bounce_steps : ℕ) (overshoot_max : ℤ) (a : Axis) :
    Axis :=
  if a.overshot_dist > 0 then
    let ov :=
      if a.overshooting < bounce_steps ∧ a.vel > 0 then
        (a.overshooting + 1,
         ((a.overshot_dist : ℚ) / (overshoot_max : ℚ)) * a.vel)
      else if a.overshooting ≥ bounce_steps ∧ a.vel > 0 then
        (a.overshooting, a.vel * (-1))
      else if a.overshooting > 1 ∧ a.vel < 0 then
        (a.overshooting, min ((a.overshot_dist : ℚ) * (4/5) * (-1)) (-10))
      else (a.overshooting, a.vel)
    { a with
      overshooting := ov.1, vel := ov.2,
      overshot_dist := truncInt (gclamp ((a.overshot_dist : ℚ) + ov.2)
        0 (overshoot_max : ℚ)) }
  else if a.overshot_dist < 0 then
    let ov :=
      if a.overshooting < bounce_steps ∧ a.vel < 0 then
        (a.overshooting + 1,
         ((a.overshot_dist : ℚ) / (overshoot_max : ℚ)) * a.vel * (-1))
      else if a.overshooting ≥ bounce_steps ∧ a.vel < 0 then
        (a.overshooting, a.vel * (-1))
      else if a.overshooting > 1 ∧ a.vel > 0 then
        (a.overshooting, max ((a.overshot_dist : ℚ) * (4/5) * (-1)) 10)
      else (a.overshooting, a.vel)
    { a with
      overshooting := ov.1, vel := ov.2,
      overshot_dist := truncInt (gclamp ((a.overshot_dist : ℚ) + ov.2)
        (-(overshoot_max : ℚ)) 0) }
  else
    { a with overshooting := 0, vel := 0 }

/-- The pressed overshooting branch of `hildon_pannable_axis_scroll`
(lines 1533-1552): the overshoot follows the finger displacement,
clamped to the maximum. -/
def axis_scroll_pressed (overshoot_max : ℤ) (a : Axis) (inc : ℚ) : Axis :=
  let dist := a.adj.value - inc
  if a.overshot_dist > 0 then
    { a with overshot_dist := truncInt (gclamp ((a.overshot_dist : ℚ) + inc)
        0 (overshoot_max : ℚ)) }
  else if a.overshot_dist < 0 then
    { a with overshot_dist := truncInt (gclamp ((a.overshot_dist : ℚ) + inc)
        (-1 * (overshoot_max : ℚ)) 0) }
  else
    { a with
      overshooting := 0,
      adj := gtk_adjustment_set_value a.adj
        (gclamp dist a.adj.lower (a.adj.upper - a.adj.pageSize)) }

def hildon_pannable_axis_scroll (button_pressed : Bool) (bounce_steps : ℕ)
    (vmax_overshooting : ℚ) (overshoot_max : ℤ) (a : Axis) (inc : ℚ)
    (s : Bool) : Axis × Bool :=
  if a.overshooting = 0 then
    axis_scroll_no_overshoot vmax_overshooting overshoot_max a inc s
  else
    if ¬button_pressed then
      (axis_scroll_bounce bounce_steps overshoot_max a, s)
    else
      (axis_scroll_pressed overshoot_max a inc, s)

/-! ### `hildon_pannable_area_scroll` and `hildon_pannable_area_timeout`
(lines 1556-1679) -/

inductive Mode
  | push
  | accel
  | auto
deriving DecidableEq, Repr

/-- The configuration fields of `HildonPannableAreaPrivate` read by the
deceleration machinery. -/
structure Cfg where
  enabled : Bool
  mode : Mode
  hasChild : Bool
  decel : ℚ
  vmax : ℚ
  low_friction_mode : Bool
  mov_mode_horiz : Bool
  mov_mode_vert : Bool
  bounce_steps : ℕ
  vmax_overshooting : ℚ
  hovershoot_max : ℤ
  vovershoot_max : ℤ
deriving DecidableEq, Repr

/-- The mutable state the tick machinery works on: the two axis bundles
(`hadjust`/`vel_x`/… and `vadjust`/`vel_y`/…), the button state, the
press / drag coordinates `x, y, ex, ey` and the deceleration timer. -/
structure PState where
  ax : Axis
  ay : Axis
  button_pressed : Bool
  px : ℚ
  py : ℚ
  ex : ℚ
  ey : ℚ
  idle_id : Bool
deriving DecidableEq, Repr

/-- `hildon_pannable_area_scroll` (lines 1556-1616): no-op without a
child; each axis with scrollable range is advanced by
`hildon_pannable_axis_scroll`, an axis without range has its velocity
zeroed and its scroll-to target cleared; in accel mode a failed axis
resets the press origin to the last motion position. -/
def hildon_pannable_area_scroll (cfg : Cfg) (st : PState) (xi yi : ℚ) :
    PState :=
  if ¬cfg.hasChild then st
  else
    let vscroll_visible := st.ay.adj.upper - st.ay.adj.lower > st.ay.adj.pageSize
    let hscroll_visible := st.ax.adj.upper - st.ax.adj.lower > st.ax.adj.pageSize
    let ry := if vscroll_visible then
        hildon_pannable_axis_scroll st.button_pressed cfg.bounce_steps
          cfg.vmax_overshooting cfg.vovershoot_max st.ay yi true
      else ({ st.ay with vel := 0, scroll_to := -1 }, true)
    let rx := if hscroll_visible then
        hildon_pannable_axis_scroll st.button_pressed cfg.bounce_steps
          cfg.vmax_overshooting cfg.hovershoot_max st.ax xi true
      else ({ st.ax with vel := 0, scroll_to := -1 }, true)
    let st1 := { st with ax := rx.1, ay := ry.1 }
    if cfg.mode = Mode.accel then
      { st1 with
        px := if ¬rx.2 then st.ex else st.px,
        py := if ¬ry.2 then st.ey else st.py }
    else st1

/-- Result of one deceleration tick: the new state, the boolean the
GSource callback returns (`FALSE` stops the timer) and whether the
"panning finished" signal was emitted. -/
structure TickResult where
  st : PState
  ret : Bool
  finished : Bool
deriving DecidableEq, Repr

/-- `hildon_pannable_area_timeout` (lines 1618-1679): scrolls by the
current velocities, then — pointer up, no overshoot in progress — either
applies the gentler scroll-to decay, or multiplies both velocities by
`decel` (modulo low-friction mode) and stops with "panning finished"
once both fall below `1.0`. -/
def hildon_pannable_area_timeout (cfg : Cfg) (st : PState) : TickResult :=
  if ¬cfg.enabled ∨ cfg.mode = Mode.push then
    ⟨{ st with idle_id := false }, false, true⟩
  else
    let st1 := hildon_pannable_area_scroll cfg st st.ax.vel st.ay.vel
    if ¬st1.button_pressed then
      if st1.ay.overshot_dist = 0 ∧ st1.ax.overshot_dist = 0 then
        if st1.ax.scroll_to ≠ -1 ∨ st1.ay.scroll_to ≠ -1 then
          let vx := if |st1.ax.vel| ≥ 3/2 then st1.ax.vel * cfg.decel else st1.ax.vel
          let vy := if |st1.ay.vel| ≥ 3/2 then st1.ay.vel * cfg.decel else st1.ay.vel
          ⟨{ st1 with ax.vel := vx, ay.vel := vy }, true, false⟩
        else
          let vx := if ¬cfg.low_friction_mode ∨
              (cfg.mov_mode_horiz ∧ |st1.ax.vel| < (4/5) * cfg.vmax) then
              st1.ax.vel * cfg.decel else st1.ax.vel
          let vy := if ¬cfg.low_friction_mode ∨
              (cfg.mov_mode_vert ∧ |st1.ay.vel| < (4/5) * cfg.vmax) then
              st1.ay.vel * cfg.decel else st1.ay.vel
          if |vx| < 1 ∧ |vy| < 1 then
            ⟨{ st1 with ax.vel := 0, ay.vel := 0, idle_id := false }, false, true⟩
          else
            ⟨{ st1 with ax.vel := vx, ay.vel := vy }, true, false⟩
      else ⟨st1, true, false⟩
    else if cfg.mode = Mode.auto then
      ⟨{ st1 with idle_id := false }, false, false⟩
    else ⟨st1, true, false⟩

/-- One tick of the deceleration timer, as a state transformer. -/
def tick (cfg : Cfg) (st : PState) : PState :=
  (hildon_pannable_area_timeout cfg st).st

/-! ### Accel-mode velocity (lines 1869-1881 of
`hildon_pannable_area_handle_move`) -/

/-- The accel-mode per-axis velocity formula of `handle_move`:
`((*x > 0) ? 1 : -1) * ((ABS (*x) / extent) * (vmax - vmin) + vmin)`,
where `d` is the displacement from the initial press point and `extent`
the widget allocation on that axis. -/
def accel_velocity (vmin vmax extent d : ℚ) : ℚ :=
  (if d > 0 then 1 else -1) * ((|d| / extent) * (vmax - vmin) + vmin)

/-- The fields written by the `HILDON_PANNABLE_AREA_MODE_ACCEL` arm of
`hildon_pannable_area_handle_move`. -/
structure MoveAccelResult where
  vel_x : ℚ
  vel_y : ℚ
  ex : ℚ
  ey : ℚ
deriving DecidableEq, Repr

/-- The `MODE_ACCEL` arm of `hildon_pannable_area_handle_move`
(lines 1869-1881): record the event position in `ex`/`ey` and set both
axis velocities from the displacement `*x = event->x - priv->x`
(resp. `*y`) relative to the press origin. -/
def hildon_pannable_area_handle_move_accel
    (vmin vmax width height : ℚ) (event_x event_y px py : ℚ) :
    MoveAccelResult :=
  { ex := event_x, ey := event_y,
    vel_x := accel_velocity vmin vmax width (event_x - px),
    vel_y := accel_velocity vmin vmax height (event_y - py) }

/-- Mathematical signum, the reading of `sign(d)` in the spec. -/
def sgn (d : ℚ) : ℚ := if d > 0 then 1 else if d < 0 then -1 else 0

/-! ### `hildon_pannable_area_button_press_cb` (lines 1235-1333) -/

inductive PressAction
  | fade_launch
  | synth_crossing_out
  | synth_crossing_in
  | synth_press
  | panning_finished
deriving DecidableEq, Repr

/-- The fields of `HildonPannableAreaPrivate` read or written by the
button-press handler.  `child` abstracts the non-NULL-ness of
`priv->child`. -/
structure PressState where
  enabled : Bool
  hasChild : Bool
  last_time : ℕ
  last_press_time : ℕ
  last_type : ℕ
  selection_movement : Bool
  vel_x : ℚ
  vel_y : ℚ
  old_vel_x : ℚ
  old_vel_y : ℚ
  scroll_to_x : ℚ
  scroll_to_y : ℚ
  px : ℚ
  py : ℚ
  ix : ℚ
  iy : ℚ
  cx : ℚ
  cy : ℚ
  button_pressed : Bool
  idle_id : Bool
  child : Bool
  child_width : ℚ
  child_height : ℚ
  last_in : Bool
  vmax : ℚ
  vfast_factor : ℚ
deriving DecidableEq, Repr

/-- `hildon_pannable_area_button_press_cb` (lines 1235-1333).
Event inputs: timestamp, button number, shift modifier, coordinates.
Environment inputs: `topmost` (whether `get_topmost` finds a child
window, with translated coordinates `tx, ty`), the child window size and
whether the event arrived on the widget's own event window.  Returns the
new state and the emitted actions (fade launch, synthetic crossings and
press, "panning finished"). -/
def hildon_pannable_area_button_press_cb
    (st : PressState) (ev_time : ℕ) (button : ℕ) (shift : Bool)
    (ev_x ev_y : ℚ) (topmost : Bool) (tx ty : ℚ) (childW childH : ℚ)
    (on_event_window : Bool) : PressState × List PressAction :=
  let sel : Bool := shift && decide (ev_time = st.last_time)
    && decide (st.last_type = 1)
  let st0 := { st with selection_movement := sel }
  if ¬st.enabled ∨ button ≠ 1 ∨ sel = true ∨
      (ev_time = st.last_time ∧ st.last_type = 1) ∨ ¬st.hasChild then
    (st0, [])
  else
    let acts0 : List PressAction := [PressAction.fade_launch]
    let st1 := { st0 with
      last_time := ev_time, last_press_time := ev_time, last_type := 1,
      scroll_to_x := -1, scroll_to_y := -1 }
    let acts1 := if st.button_pressed ∧ st.child then
        acts0 ++ [PressAction.synth_crossing_out] else acts0
    let st2 := { st1 with px := ev_x, py := ev_y, ix := ev_x, iy := ev_y }
    let newChild := if |st.vel_x| ≤ st.vmax * st.vfast_factor ∧
        |st.vel_y| ≤ st.vmax * st.vfast_factor then topmost else false
    let st3 := { st2 with
      child := newChild, button_pressed := true,
      old_vel_x := st.vel_x, old_vel_y := st.vel_y,
      vel_x := 0, vel_y := 0 }
    let r4 := if st.idle_id then
        ({ st3 with idle_id := false }, acts1 ++ [PressAction.panning_finished])
      else (st3, acts1)
    if newChild then
      let st5 := { r4.1 with
        child_width := childW, child_height := childH, last_in := true }
      let acts3 := r4.2 ++ [PressAction.synth_crossing_in]
      if on_event_window then
        ({ st5 with cx := tx, cy := ty }, acts3 ++ [PressAction.synth_press])
      else (st5, acts3)
    else r4

/-! ### The velocity part of `hildon_pannable_area_button_release_cb`
(lines 2093-2179) -/

inductive RelAction
  | panning_started
  | panning_finished
deriving DecidableEq, Repr

/-- Configuration read by the release handler. -/
structure RelCfg where
  vmin : ℚ
  accel_vel_x : ℚ
  accel_vel_y : ℚ
  bounce_steps : ℕ
deriving DecidableEq, Repr

/-- State threaded through the release handler's velocity logic. -/
structure RelState where
  vel_x : ℚ
  vel_y : ℚ
  old_vel_x : ℚ
  old_vel_y : ℚ
  overshot_dist_x : ℤ
  overshot_dist_y : ℤ
  overshooting_x : ℕ
  overshooting_y : ℕ
  button_pressed : Bool
  moved : Bool
  idle_id : Bool
  scroll_indicator_alpha : ℚ
deriving DecidableEq, Repr

/-- The velocity / timer portion of
`hildon_pannable_area_button_release_cb` (lines 2093-2179), entered once
the guard at line 2057 has passed and the last event was not a motion
event (so the motion-replay block at lines 2065-2091 did not run):
overshoot-release hack, fast-click boost (`FAST_CLICK = 125`,
`MIN_ACCEL_THRESHOLD = 40`), `MAX_SPEED_THRESHOLD = 280` capping, and
the decision to launch the deceleration timer or finish. -/
def hildon_pannable_area_release_velocity
    (cfg : RelCfg) (st : RelState) (ev_time last_press_time : ℕ) :
    RelState × List RelAction :=
  let st1 := if st.overshot_dist_y ≠ 0 then
      { st with
        overshooting_y := cfg.bounce_steps,
        vel_y := (st.overshot_dist_y : ℚ) * (9/10) } else st
  let st2 := if st1.overshot_dist_x ≠ 0 then
      { st1 with
        overshooting_x := cfg.bounce_steps,
        vel_x := (st1.overshot_dist_x : ℚ) * (9/10) } else st1
  let st3 := { st2 with button_pressed := false }
  let boost := ev_time - last_press_time < 125 ∧
    (|st3.old_vel_x| > cfg.vmin ∨ |st3.old_vel_y| > cfg.vmin) ∧
    (|st3.old_vel_x| > 40 ∨ |st3.old_vel_y| > 40)
  let r4 :=
    if boost then
      let symx : ℚ := if st3.vel_x ≠ 0 then
          (if st3.vel_x * st3.old_vel_x > 0 then 1 else -1) else 0
      let symy : ℚ := if st3.vel_y ≠ 0 then
          (if st3.vel_y * st3.old_vel_y > 0 then 1 else -1) else 0
      ({ st3 with
         vel_x := symx * (st3.old_vel_x +
           (if st3.old_vel_x > 0 then cfg.accel_vel_x else -cfg.accel_vel_x)),
         vel_y := symy * (st3.old_vel_y +
           (if st3.old_vel_y > 0 then cfg.accel_vel_y else -cfg.accel_vel_y)) },
       false)
    else (st3, true)
  if |r4.1.vel_y| ≥ cfg.vmin ∨ |r4.1.vel_x| ≥ cfg.vmin then
    let acts := if r4.1.moved then ([] : List RelAction)
      else [RelAction.panning_started]
    let st5 := { r4.1 with scroll_indicator_alpha := 1 }
    let st6 := if r4.2 then
        { st5 with
          vel_x := if |st5.vel_x| > 280 ∧ cfg.accel_vel_x > 280 then
              (if st5.vel_x > 0 then cfg.accel_vel_x else -cfg.accel_vel_x)
            else st5.vel_x,
          vel_y := if |st5.vel_y| > 280 ∧ cfg.accel_vel_y > 280 then
              (if st5.vel_y > 0 then cfg.accel_vel_y else -cfg.accel_vel_y)
            else st5.vel_y }
      else st5
    let st7 := if st6.idle_id then st6 else { st6 with idle_id := true }
    (st7, acts)
  else
    let acts := if r4.1.moved then [RelAction.panning_finished] else []
    (r4.1, acts)

/-! ## Helper lemmas about the embedded glib primitives -/

theorem gclamp_mem {lo hi : ℚ} (x : ℚ) (h : lo ≤ hi) :
    lo ≤ gclamp x lo hi ∧ gclamp x lo hi ≤ hi := by
  unfold gclamp
  split_ifs with h1 h2
  · exact ⟨h, le_refl hi⟩
  · exact ⟨le_refl lo, h⟩
  · exact ⟨le_of_not_lt h2, le_of_not_lt h1⟩

theorem gclamp_eq_self {lo hi : ℚ} (x : ℚ) (h1 : lo ≤ x) (h2 : x ≤ hi) :
    gclamp x lo hi = x := by
  unfold gclamp
  rw [if_neg (not_lt.mpr h2), if_neg (not_lt.mpr h1)]

theorem truncInt_mem {lo hi : ℤ} {q : ℚ} (h1 : (lo : ℚ) ≤ q)
    (h2 : q ≤ (hi : ℚ)) : lo ≤ truncInt q ∧ truncInt q ≤ hi := by
  unfold truncInt
  split_ifs with h
  · refine ⟨Int.le_floor.mpr h1, ?_⟩
    have : ((⌊q⌋ : ℤ) : ℚ) ≤ (hi : ℚ) := le_trans (Int.floor_le q) h2
    exact_mod_cast this
  · refine ⟨?_, Int.ceil_le.mpr h2⟩
    have : ((lo : ℤ) : ℚ) ≤ ((⌈q⌉ : ℤ) : ℚ) := le_trans h1 (Int.le_ceil q)
    exact_mod_cast this

theorem truncInt_intCast (n : ℤ) : truncInt (n : ℚ) = n := by
  unfold truncInt
  split_ifs with h
  · exact Int.floor_intCast n
  · exact Int.ceil_intCast n

/-- Truncation of a rational strictly below an integer stays strictly
below it, as long as the rational is nonnegative. -/
theorem truncInt_lt_of_lt {q : ℚ} {n : ℤ} (h0 : 0 ≤ q) (h : q < (n : ℚ)) :
    truncInt q < n := by
  unfold truncInt
  rw [if_pos h0]
  exact Int.floor_lt.mpr h

/-- `gtk_adjustment_set_value` is the identity on the value when the
value lies in `[lower, upper - pageSize]`. -/
theorem gtk_adjustment_set_value_eq {adj : Adj} {v : ℚ}
    (h1 : adj.lower ≤ v) (h2 : v ≤ adj.upper - adj.pageSize) :
    gtk_adjustment_set_value adj v = { adj with value := v } := by
  unfold gtk_adjustment_set_value
  rw [min_eq_left h2, max_eq_right h1]

/-! ## C1 -/

/-- C1: the claim states `scroll_to (x, -1)` leaves the vertical
adjustment's value unchanged.  The doc comment of
`hildon_pannable_area_scroll_to` promises the same ("-1 to ignore this
axis"), but the code clamps `-1 - page/2` into the vertical range before
`set_value_internal` can recognise the `-1`, so the vertical value is
dragged to its lower bound: with both adjustments at value 300 in
`[0, 1000]` with page size 400 (and duration 0, so the value is applied
immediately), `scroll_to (400, -1)` moves the vertical value from 300 to
0 while the horizontal value becomes 200.  `scroll_to (-1, -1)` is
indeed a no-op.  The marker comment `// WORKING ON THIS.  HANDLE -1
values` at line 2563 records the unfinished `-1` handling. -/
theorem scroll_to_drags_ignored_vertical_axis :
    (hildon_pannable_area_scroll_to
      { hadj := ⟨300, 0, 1000, 400⟩, vadj := ⟨300, 0, 1000, 400⟩,
        duration := 0, hasClock := true, tick_id := false,
        hsource := 0, htarget := 0, vsource := 0, vtarget := 0,
        start_time := 0, end_time := 0 } 400 (-1) 0).vadj.value = 0 ∧
    (hildon_pannable_area_scroll_to
      { hadj := ⟨300, 0, 1000, 400⟩, vadj := ⟨300, 0, 1000, 400⟩,
        duration := 0, hasClock := true, tick_id := false,
        hsource := 0, htarget := 0, vsource := 0, vtarget := 0,
        start_time := 0, end_time := 0 } 400 (-1) 0).hadj.value = 200 ∧
    (0 : ℚ) ≠ 300 ∧
    (hildon_pannable_area_scroll_to
      { hadj := ⟨300, 0, 1000, 400⟩, vadj := ⟨300, 0, 1000, 400⟩,
        duration := 0, hasClock := true, tick_id := false,
        hsource := 0, htarget := 0, vsource := 0, vtarget := 0,
        start_time := 0, end_time := 0 } (-1) (-1) 0) =
      { hadj := ⟨300, 0, 1000, 400⟩, vadj := ⟨300, 0, 1000, 400⟩,
        duration := 0, hasClock := true, tick_id := false,
        hsource := 0, htarget := 0, vsource := 0, vtarget := 0,
        start_time := 0, end_time := 0 } := by
  refine ⟨?_, ?_, by norm_num, ?_⟩ <;>
    norm_num [hildon_pannable_area_scroll_to,
      hildon_pannable_area_set_value_internal, gtk_adjustment_set_value,
      gclamp]

/-! ## C5 -/

/-- C5: for `|dist| ≥ 1e-6` (and a nonzero time delta, so the C division
is well defined, and a nonnegative `vmax`), the auto-mode velocity
update produces exactly
`old_vel * (1 - drag_inertia) + (dist / |delta|) * force * drag_inertia`
clamped to `[-vmax, vmax]`; for `|dist| < 1e-6` the velocity is left
unchanged. -/
theorem calculate_velocity_spec
    (vel delta dist vmax drag_inertia force : ℚ)
    (hvmax : 0 ≤ vmax) (hdelta : delta ≠ 0) :
    (|dist| ≥ ratio_tolerance →
      hildon_pannable_area_calculate_velocity vel delta dist vmax
          drag_inertia force =
        clampSpec (-vmax) vmax
          (vel * (1 - drag_inertia) + (dist / |delta|) * force * drag_inertia)) ∧
    (|dist| < ratio_tolerance →
      hildon_pannable_area_calculate_velocity vel delta dist vmax
          drag_inertia force = vel) := by
  unfold hildon_pannable_area_calculate_velocity clampSpec
  constructor
  · intro h
    rw [if_pos h]
    dsimp only
    set v := vel * (1 - drag_inertia) + dist / |delta| * force * drag_inertia
      with hv
    split_ifs with hpos
    · have h1 : -vmax ≤ min vmax v := by
        have h0 : (0 : ℚ) ≤ min vmax v := le_min hvmax (le_of_lt hpos)
        linarith
      rw [min_comm, max_eq_right h1]
    · push_neg at hpos
      rw [min_eq_right (le_trans hpos hvmax), max_comm, neg_one_mul]
  · intro h
    rw [if_neg (not_le.mpr h)]

/-- C5 witness: the theorem applied at
`vel = 10, delta = 2, dist = 5, vmax = 100, drag_inertia = 1/2,
force = 3`. -/
theorem calculate_velocity_spec_witness :
    (0 : ℚ) ≤ 100 ∧ (2 : ℚ) ≠ 0 ∧
    ((|(5 : ℚ)| ≥ ratio_tolerance →
      hildon_pannable_area_calculate_velocity 10 2 5 100 (1/2) 3 =
        clampSpec (-100) 100
          (10 * (1 - 1/2) + ((5 : ℚ) / |(2 : ℚ)|) * 3 * (1/2))) ∧
    (|(5 : ℚ)| < ratio_tolerance →
      hildon_pannable_area_calculate_velocity 10 2 5 100 (1/2) 3 = 10)) :=
  ⟨by norm_num, by norm_num, calculate_velocity_spec 10 2 5 100 (1/2) 3
    (by norm_num) (by norm_num)⟩

/-! ## C6 -/

/-- C6 counterexample: the claim says the accel-mode velocity is
`sign(d) * ((|d| / w) * (vmax - vmin) + vmin)` for every motion event.
At zero displacement (`d = 0`, reachable by a perfectly vertical drag)
the code's sign factor `(*x > 0) ? 1 : -1` is `-1`, so with
`vmin = 10, vmax = 500, w = 100` the velocity is `-10`, while the
claimed formula gives `sign(0) * (0 + 10) = 0`. -/
theorem accel_velocity_zero_disp_counterexample :
    (hildon_pannable_area_handle_move_accel 10 500 100 60 5 5 5 8).vel_x
      = -10 ∧
    sgn ((5 : ℚ) - 5) * ((|(5 : ℚ) - 5| / 100) * (500 - 10) + 10) = 0 ∧
    (-10 : ℚ) ≠ 0 := by
  refine ⟨?_, ?_, by norm_num⟩ <;>
    norm_num [hildon_pannable_area_handle_move_accel, accel_velocity, sgn]

/-- C6 (amended): on every motion event handled in accel mode with
widget extent `w` on an axis, the axis velocity is recomputed as
`sign(d) * ((|d| / w) * (vmax - vmin) + vmin)` whenever the cumulative
displacement `d` from the initial press point is nonzero; at `d = 0` the
code's two-valued sign makes the velocity `-vmin` instead of `0`. -/
theorem handle_move_accel_velocity
    (vmin vmax width height evx evy px py : ℚ) :
    ((evx - px ≠ 0 →
      (hildon_pannable_area_handle_move_accel vmin vmax width height
        evx evy px py).vel_x
        = sgn (evx - px) * ((|evx - px| / width) * (vmax - vmin) + vmin)) ∧
     (evx - px = 0 →
      (hildon_pannable_area_handle_move_accel vmin vmax width height
        evx evy px py).vel_x = -vmin)) ∧
    ((evy - py ≠ 0 →
      (hildon_pannable_area_handle_move_accel vmin vmax width height
        evx evy px py).vel_y
        = sgn (evy - py) * ((|evy - py| / height) * (vmax - vmin) + vmin)) ∧
     (evy - py = 0 →
      (hildon_pannable_area_handle_move_accel vmin vmax width height
        evx evy px py).vel_y = -vmin)) := by
  unfold hildon_pannable_area_handle_move_accel accel_velocity sgn
  constructor <;> constructor <;> intro h
  · rcases lt_or_gt_of_ne h with hlt | hgt
    · rw [if_neg (not_lt.mpr (le_of_lt hlt)), if_neg (lt_asymm hlt),
        if_pos hlt]
    · rw [if_pos hgt, if_pos hgt]
  · rw [h]
    norm_num
  · rcases lt_or_gt_of_ne h with hlt | hgt
    · rw [if_neg (not_lt.mpr (le_of_lt hlt)), if_neg (lt_asymm hlt),
        if_pos hlt]
    · rw [if_pos hgt, if_pos hgt]
  · rw [h]
    norm_num

/-- C6 witness: the amended theorem applied at a motion event with
displacement `d = 2` on x and `d = 0` on y
(`vmin = 10, vmax = 500, w = 100, h = 60`). -/
theorem handle_move_accel_velocity_witness :
    (((3 : ℚ) - 1 ≠ 0 →
      (hildon_pannable_area_handle_move_accel 10 500 100 60 3 7 1 7).vel_x
        = sgn ((3 : ℚ) - 1) * ((|(3 : ℚ) - 1| / 100) * (500 - 10) + 10)) ∧
     ((3 : ℚ) - 1 = 0 →
      (hildon_pannable_area_handle_move_accel 10 500 100 60 3 7 1 7).vel_x
        = -10)) ∧
    (((7 : ℚ) - 7 ≠ 0 →
      (hildon_pannable_area_handle_move_accel 10 500 100 60 3 7 1 7).vel_y
        = sgn ((7 : ℚ) - 7) * ((|(7 : ℚ) - 7| / 60) * (500 - 10) + 10)) ∧
     ((7 : ℚ) - 7 = 0 →
      (hildon_pannable_area_handle_move_accel 10 500 100 60 3 7 1 7).vel_y
        = -10)) :=
  handle_move_accel_velocity 10 500 100 60 3 7 1 7

/-! ## C7 -/

/-- The state component of the release handler's result. -/
def releaseVel (cfg : RelCfg) (st : RelState) (ev_time last_press_time : ℕ) :
    RelState :=
  (hildon_pannable_area_release_velocity cfg st ev_time last_press_time).1

/-- C7 counterexample: the claim says that on a fast release (< 125 ms
after the press, `old_vel` beyond both thresholds on some axis) the
release velocity on each axis is boosted by the acceleration constant in
the direction of the prior motion.  For an axis whose current release
velocity is zero — here a press at high `old_vel_x = 300` followed by an
immediate release with no motion, so `vel_x = 0` — the code's `symbol`
factor is `0` and the resulting velocity is `0`, not the boosted
`sign(300) * (|300| + accel_vel_x) = 400`. -/
theorem release_boost_zero_axis_counterexample :
    (releaseVel ⟨10, 100, 100, 3⟩
      ⟨0, 0, 300, 0, 0, 0, 0, 0, true, true, false, 0⟩ 100 50).vel_x = 0 ∧
    (0 : ℚ) ≠ sgn (300 : ℚ) * (|(300 : ℚ)| + 100) := by
  constructor
  · norm_num [releaseVel, hildon_pannable_area_release_velocity]
  · norm_num [sgn]

set_option maxHeartbeats 1000000 in
/-- Intermediate fact for C7: under the fast-click boost condition (and
no overshoot in progress) the release handler sets each axis velocity to
`symbol * (old_vel + (old_vel > 0 ? accel_vel : -accel_vel))` with
`symbol = 0` for a zero release velocity and `±1` by the sign of
`vel * old_vel` otherwise (lines 2106-2132). -/
theorem boost_vels (cfg : RelCfg) (st : RelState)
    (ev_time last_press_time : ℕ)
    (hodx : st.overshot_dist_x = 0) (hody : st.overshot_dist_y = 0)
    (htime : ev_time - last_press_time < 125)
    (hvmin : |st.old_vel_x| > cfg.vmin ∨ |st.old_vel_y| > cfg.vmin)
    (hthr : |st.old_vel_x| > 40 ∨ |st.old_vel_y| > 40) :
    (releaseVel cfg st ev_time last_press_time).vel_x
      = (if st.vel_x ≠ 0 then
          (if st.vel_x * st.old_vel_x > 0 then (1:ℚ) else -1) else 0) *
        (st.old_vel_x + (if st.old_vel_x > 0 then cfg.accel_vel_x
          else -cfg.accel_vel_x)) ∧
    (releaseVel cfg st ev_time last_press_time).vel_y
      = (if st.vel_y ≠ 0 then
          (if st.vel_y * st.old_vel_y > 0 then (1:ℚ) else -1) else 0) *
        (st.old_vel_y + (if st.old_vel_y > 0 then cfg.accel_vel_y
          else -cfg.accel_vel_y)) := by
  norm_num [releaseVel, hildon_pannable_area_release_velocity, hodx, hody,
    htime, hvmin, hthr]
  split_ifs <;> simp

/-- C7 (amended): on a release occurring strictly less than 125 ms after
the last press, with `old_vel` exceeding `vmin` and the 40 px/tick
acceleration threshold on some axis (and no overshoot in progress), each
axis's velocity is rewritten by a complete case split: a zero release
velocity stays at zero, unboosted (`symbol = 0`); a nonzero release
velocity with a nonzero pre-press velocity becomes
`sign(release velocity) * (|old_vel| + accel_vel)` — boost magnitude
from the pre-press velocity, direction from the motion just before
release; and a nonzero release velocity with `old_vel = 0` becomes
`+accel_vel` regardless of either sign, because the code's two-valued
sign makes `symbol = -1` while the inner term collapses to
`-accel_vel`. -/
theorem release_fastclick_boost (cfg : RelCfg) (st : RelState)
    (ev_time last_press_time : ℕ)
    (hodx : st.overshot_dist_x = 0) (hody : st.overshot_dist_y = 0)
    (htime : ev_time - last_press_time < 125)
    (hvmin : |st.old_vel_x| > cfg.vmin ∨ |st.old_vel_y| > cfg.vmin)
    (hthr : |st.old_vel_x| > 40 ∨ |st.old_vel_y| > 40) :
    (st.vel_x = 0 →
      (releaseVel cfg st ev_time last_press_time).vel_x = 0) ∧
    (st.vel_x ≠ 0 → st.old_vel_x ≠ 0 →
      (releaseVel cfg st ev_time last_press_time).vel_x
        = sgn st.vel_x * (|st.old_vel_x| + cfg.accel_vel_x)) ∧
    (st.vel_x ≠ 0 → st.old_vel_x = 0 →
      (releaseVel cfg st ev_time last_press_time).vel_x
        = cfg.accel_vel_x) ∧
    (st.vel_y = 0 →
      (releaseVel cfg st ev_time last_press_time).vel_y = 0) ∧
    (st.vel_y ≠ 0 → st.old_vel_y ≠ 0 →
      (releaseVel cfg st ev_time last_press_time).vel_y
        = sgn st.vel_y * (|st.old_vel_y| + cfg.accel_vel_y)) ∧
    (st.vel_y ≠ 0 → st.old_vel_y = 0 →
      (releaseVel cfg st ev_time last_press_time).vel_y
        = cfg.accel_vel_y) := by
  obtain ⟨hbx, hby⟩ := boost_vels cfg st ev_time last_press_time hodx hody
    htime hvmin hthr
  refine ⟨?_, ?_, ?_, ?_, ?_, ?_⟩
  · intro h0
    rw [hbx, if_neg (by simp [h0]), zero_mul]
  · intro hne hone
    rw [hbx, if_pos hne]
    simp only [sgn]
    rcases lt_or_gt_of_ne hone with ho | ho <;>
      rcases lt_or_gt_of_ne hne with hv | hv
    · rw [if_pos (mul_pos_of_neg_of_neg hv ho), if_neg (not_lt.mpr ho.le),
        if_neg (not_lt.mpr hv.le), if_pos hv, abs_of_neg ho]
      try ring
    · rw [if_neg (not_lt.mpr (mul_nonpos_iff.mpr (Or.inl ⟨hv.le, ho.le⟩))),
        if_neg (not_lt.mpr ho.le), if_pos hv, abs_of_neg ho]
      try ring
    · rw [if_neg (not_lt.mpr (mul_nonpos_iff.mpr (Or.inr ⟨hv.le, ho.le⟩))),
        if_pos ho, if_neg (not_lt.mpr hv.le), if_pos hv, abs_of_pos ho]
      try ring
    · rw [if_pos (mul_pos hv ho), if_pos ho, if_neg (not_lt.mpr hv.le),
        if_pos hv, abs_of_pos ho]
      try ring
  · intro hne hone
    rw [hbx, if_pos hne, hone]
    norm_num
  · intro h0
    rw [hby, if_neg (by simp [h0]), zero_mul]
  · intro hne hone
    rw [hby, if_pos hne]
    simp only [sgn]
    rcases lt_or_gt_of_ne hone with ho | ho <;>
      rcases lt_or_gt_of_ne hne with hv | hv
    · rw [if_pos (mul_pos_of_neg_of_neg hv ho), if_neg (not_lt.mpr ho.le),
        if_neg (not_lt.mpr hv.le), if_pos hv, abs_of_neg ho]
      try ring
    · rw [if_neg (not_lt.mpr (mul_nonpos_iff.mpr (Or.inl ⟨hv.le, ho.le⟩))),
        if_neg (not_lt.mpr ho.le), if_pos hv, abs_of_neg ho]
      try ring
    · rw [if_neg (not_lt.mpr (mul_nonpos_iff.mpr (Or.inr ⟨hv.le, ho.le⟩))),
        if_pos ho, if_neg (not_lt.mpr hv.le), if_pos hv, abs_of_pos ho]
      try ring
    · rw [if_pos (mul_pos hv ho), if_pos ho, if_neg (not_lt.mpr hv.le),
        if_pos hv, abs_of_pos ho]
      try ring
  · intro hne hone
    rw [hby, if_pos hne, hone]
    norm_num

/-- C7 witness: the amended theorem applied at a fast release
(`ev_time - last_press = 50 < 125 ms`) with `old_vel_x = 300` beyond
both thresholds (`vmin = 10`, threshold 40), release velocities
`vel_x = 5`, `vel_y = -7`, pre-press velocities `old_vel_x = 300`,
`old_vel_y = 0`, `accel_vel_x = accel_vel_y = 100`: the horizontal axis
is boosted to `sgn 5 * (300 + 100)` and the vertical axis — nonzero
release velocity but zero pre-press velocity — to `+100`. -/
theorem release_fastclick_boost_witness :
    (((5:ℚ) = 0 →
      (releaseVel ⟨10, 100, 100, 3⟩
        ⟨5, -7, 300, 0, 0, 0, 0, 0, true, true, false, 0⟩ 100 50).vel_x
        = 0) ∧
    ((5:ℚ) ≠ 0 → (300:ℚ) ≠ 0 →
      (releaseVel ⟨10, 100, 100, 3⟩
        ⟨5, -7, 300, 0, 0, 0, 0, 0, true, true, false, 0⟩ 100 50).vel_x
        = sgn (5:ℚ) * (|(300:ℚ)| + 100)) ∧
    ((5:ℚ) ≠ 0 → (300:ℚ) = 0 →
      (releaseVel ⟨10, 100, 100, 3⟩
        ⟨5, -7, 300, 0, 0, 0, 0, 0, true, true, false, 0⟩ 100 50).vel_x
        = 100) ∧
    ((-7:ℚ) = 0 →
      (releaseVel ⟨10, 100, 100, 3⟩
        ⟨5, -7, 300, 0, 0, 0, 0, 0, true, true, false, 0⟩ 100 50).vel_y
        = 0) ∧
    ((-7:ℚ) ≠ 0 → (0:ℚ) ≠ 0 →
      (releaseVel ⟨10, 100, 100, 3⟩
        ⟨5, -7, 300, 0, 0, 0, 0, 0, true, true, false, 0⟩ 100 50).vel_y
        = sgn (-7:ℚ) * (|(0:ℚ)| + 100)) ∧
    ((-7:ℚ) ≠ 0 → (0:ℚ) = 0 →
      (releaseVel ⟨10, 100, 100, 3⟩
        ⟨5, -7, 300, 0, 0, 0, 0, 0, true, true, false, 0⟩ 100 50).vel_y
        = 100)) :=
  release_fastclick_boost ⟨10, 100, 100, 3⟩
    ⟨5, -7, 300, 0, 0, 0, 0, 0, true, true, false, 0⟩ 100 50
    rfl rfl (by norm_num) (by norm_num) (by norm_num)

/-! ## C8 and C10 -/

/-- The state component of the press handler's result. -/
def pressSt (st : PressState) (ev_time button : ℕ) (shift : Bool)
    (evx evy : ℚ) (topmost : Bool) (tx ty cw ch : ℚ) (on_ew : Bool) :
    PressState :=
  (hildon_pannable_area_button_press_cb st ev_time button shift evx evy
    topmost tx ty cw ch on_ew).1

/-- The actions emitted by the press handler. -/
def pressActs (st : PressState) (ev_time button : ℕ) (shift : Bool)
    (evx evy : ℚ) (topmost : Bool) (tx ty cw ch : ℚ) (on_ew : Bool) :
    List PressAction :=
  (hildon_pannable_area_button_press_cb st ev_time button shift evx evy
    topmost tx ty cw ch on_ew).2

/-- C8: the button-press handler returns with no action emitted exactly
when the area is disabled, the button is not button 1, there is no
child, or the event has the same timestamp as a previous event of the
same type (a press, `last_type = 1`); and in that case the state is
untouched except for the `selection_movement` flag recomputed from the
event — in particular no velocity, origin, scroll-to target, timer or
timestamp field changes and no signal is emitted. -/
theorem button_press_guard (st : PressState) (ev_time button : ℕ)
    (shift : Bool) (evx evy tx ty cw ch : ℚ) (topmost on_ew : Bool) :
    ((¬st.enabled ∨ button ≠ 1 ∨ ¬st.hasChild ∨
        (ev_time = st.last_time ∧ st.last_type = 1)) ↔
      pressActs st ev_time button shift evx evy topmost tx ty cw ch on_ew
        = []) ∧
    ((¬st.enabled ∨ button ≠ 1 ∨ ¬st.hasChild ∨
        (ev_time = st.last_time ∧ st.last_type = 1)) →
      pressSt st ev_time button shift evx evy topmost tx ty cw ch on_ew =
        { st with selection_movement := shift && decide (ev_time = st.last_time) && decide (st.last_type = 1) }) := by
  have hsel : ((shift && decide (ev_time = st.last_time) &&
      decide (st.last_type = 1)) = true) →
      (ev_time = st.last_time ∧ st.last_type = 1) := by
    intro h
    simp only [Bool.and_eq_true, decide_eq_true_eq] at h
    exact ⟨h.1.2, h.2⟩
  by_cases hg : (¬st.enabled ∨ button ≠ 1 ∨
      (shift && decide (ev_time = st.last_time) &&
        decide (st.last_type = 1)) = true ∨
      (ev_time = st.last_time ∧ st.last_type = 1) ∨ ¬st.hasChild)
  · have hres : hildon_pannable_area_button_press_cb st ev_time button shift
        evx evy topmost tx ty cw ch on_ew =
        ({ st with selection_movement := shift && decide (ev_time = st.last_time) && decide (st.last_type = 1) }, []) := by
      unfold hildon_pannable_area_button_press_cb
      rw [if_pos hg]
    have hmy : (¬st.enabled ∨ button ≠ 1 ∨ ¬st.hasChild ∨
        (ev_time = st.last_time ∧ st.last_type = 1)) := by
      rcases hg with h | h | h | h | h
      · exact Or.inl h
      · exact Or.inr (Or.inl h)
      · exact Or.inr (Or.inr (Or.inr (hsel h)))
      · exact Or.inr (Or.inr (Or.inr h))
      · exact Or.inr (Or.inr (Or.inl h))
    refine ⟨⟨fun _ => ?_, fun _ => hmy⟩, fun _ => ?_⟩
    · rw [pressActs, hres]
    · rw [pressSt, hres]
  · have hmy : ¬(¬st.enabled ∨ button ≠ 1 ∨ ¬st.hasChild ∨
        (ev_time = st.last_time ∧ st.last_type = 1)) := by
      intro h
      apply hg
      rcases h with h | h | h | h
      · exact Or.inl h
      · exact Or.inr (Or.inl h)
      · exact Or.inr (Or.inr (Or.inr (Or.inr h)))
      · exact Or.inr (Or.inr (Or.inr (Or.inl h)))
    have hne : pressActs st ev_time button shift evx evy topmost tx ty cw ch
        on_ew ≠ [] := by
      rw [pressActs]
      unfold hildon_pannable_area_button_press_cb
      rw [if_neg hg]
      dsimp only
      split_ifs <;> simp
    exact ⟨⟨fun h => absurd h hmy, fun h => absurd h hne⟩,
      fun h => absurd h hmy⟩

/-- C10: an accepted button press (guards passed) zeroes both axis
velocities while saving the previous ones in `old_vel_x` / `old_vel_y`,
clears both scroll-to targets to `-1`, marks the button pressed, and —
exactly when the deceleration timer was running — removes the timer and
emits "panning finished". -/
theorem button_press_accept_effects (st : PressState)
    (ev_time button : ℕ) (shift : Bool) (evx evy tx ty cw ch : ℚ)
    (topmost on_ew : Bool)
    (hen : st.enabled = true) (hb : button = 1) (hch : st.hasChild = true)
    (ht : ¬(ev_time = st.last_time ∧ st.last_type = 1)) :
    (pressSt st ev_time button shift evx evy topmost tx ty cw ch
      on_ew).vel_x = 0 ∧
    (pressSt st ev_time button shift evx evy topmost tx ty cw ch
      on_ew).vel_y = 0 ∧
    (pressSt st ev_time button shift evx evy topmost tx ty cw ch
      on_ew).old_vel_x = st.vel_x ∧
    (pressSt st ev_time button shift evx evy topmost tx ty cw ch
      on_ew).old_vel_y = st.vel_y ∧
    (pressSt st ev_time button shift evx evy topmost tx ty cw ch
      on_ew).scroll_to_x = -1 ∧
    (pressSt st ev_time button shift evx evy topmost tx ty cw ch
      on_ew).scroll_to_y = -1 ∧
    (pressSt st ev_time button shift evx evy topmost tx ty cw ch
      on_ew).button_pressed = true ∧
    (pressSt st ev_time button shift evx evy topmost tx ty cw ch
      on_ew).idle_id = false ∧
    (st.idle_id = true → PressAction.panning_finished ∈
      pressActs st ev_time button shift evx evy topmost tx ty cw ch on_ew) ∧
    (st.idle_id = false → PressAction.panning_finished ∉
      pressActs st ev_time button shift evx evy topmost tx ty cw ch on_ew) := by
  have hg : ¬(¬st.enabled ∨ button ≠ 1 ∨
      (shift && decide (ev_time = st.last_time) &&
        decide (st.last_type = 1)) = true ∨
      (ev_time = st.last_time ∧ st.last_type = 1) ∨ ¬st.hasChild) := by
    intro h
    rcases h with h | h | h | h | h
    · exact h hen
    · exact h hb
    · simp only [Bool.and_eq_true, decide_eq_true_eq] at h
      exact ht ⟨h.1.2, h.2⟩
    · exact ht h
    · exact h hch
  rw [pressSt, pressActs]
  unfold hildon_pannable_area_button_press_cb
  rw [if_neg hg]
  dsimp only
  split_ifs with h1 h2 h3 h4 h5 h6 <;>
    simp_all

/-- C10 witness: the theorem applied at an enabled press (button 1,
fresh timestamp) on a state with a running deceleration timer and
velocities `(7, 8)`. -/
theorem button_press_accept_effects_witness :
    (pressSt ⟨true, true, 10, 10, 3, false, 7, 8, 0, 0, 5, 5, 0, 0, 0, 0,
      0, 0, false, true, false, 0, 0, false, 500, 1⟩ 20 1 false 40 50 true
      2 3 90 90 true).vel_x = 0 ∧
    (pressSt ⟨true, true, 10, 10, 3, false, 7, 8, 0, 0, 5, 5, 0, 0, 0, 0,
      0, 0, false, true, false, 0, 0, false, 500, 1⟩ 20 1 false 40 50 true
      2 3 90 90 true).vel_y = 0 ∧
    (pressSt ⟨true, true, 10, 10, 3, false, 7, 8, 0, 0, 5, 5, 0, 0, 0, 0,
      0, 0, false, true, false, 0, 0, false, 500, 1⟩ 20 1 false 40 50 true
      2 3 90 90 true).old_vel_x = 7 ∧
    (pressSt ⟨true, true, 10, 10, 3, false, 7, 8, 0, 0, 5, 5, 0, 0, 0, 0,
      0, 0, false, true, false, 0, 0, false, 500, 1⟩ 20 1 false 40 50 true
      2 3 90 90 true).old_vel_y = 8 ∧
    (pressSt ⟨true, true, 10, 10, 3, false, 7, 8, 0, 0, 5, 5, 0, 0, 0, 0,
      0, 0, false, true, false, 0, 0, false, 500, 1⟩ 20 1 false 40 50 true
      2 3 90 90 true).scroll_to_x = -1 ∧
    (pressSt ⟨true, true, 10, 10, 3, false, 7, 8, 0, 0, 5, 5, 0, 0, 0, 0,
      0, 0, false, true, false, 0, 0, false, 500, 1⟩ 20 1 false 40 50 true
      2 3 90 90 true).scroll_to_y = -1 ∧
    (pressSt ⟨true, true, 10, 10, 3, false, 7, 8, 0, 0, 5, 5, 0, 0, 0, 0,
      0, 0, false, true, false, 0, 0, false, 500, 1⟩ 20 1 false 40 50 true
      2 3 90 90 true).button_pressed = true ∧
    (pressSt ⟨true, true, 10, 10, 3, false, 7, 8, 0, 0, 5, 5, 0, 0, 0, 0,
      0, 0, false, true, false, 0, 0, false, 500, 1⟩ 20 1 false 40 50 true
      2 3 90 90 true).idle_id = false ∧
    (true = true → PressAction.panning_finished ∈
      pressActs ⟨true, true, 10, 10, 3, false, 7, 8, 0, 0, 5, 5, 0, 0, 0,
        0, 0, 0, false, true, false, 0, 0, false, 500, 1⟩ 20 1 false 40 50
        true 2 3 90 90 true) ∧
    (true = false → PressAction.panning_finished ∉
      pressActs ⟨true, true, 10, 10, 3, false, 7, 8, 0, 0, 5, 5, 0, 0, 0,
        0, 0, 0, false, true, false, 0, 0, false, 500, 1⟩ 20 1 false 40 50
        true 2 3 90 90 true) :=
  button_press_accept_effects
    ⟨true, true, 10, 10, 3, false, 7, 8, 0, 0, 5, 5, 0, 0, 0, 0, 0, 0,
      false, true, false, 0, 0, false, 500, 1⟩ 20 1 false 40 50 2 3 90 90
    true true rfl rfl rfl (by decide)

/-! ## C2 -/

/-- Bounds for the truncated upper-side clamp `CLAMP (x, 0, om)`. -/
theorem abs_truncInt_gclamp_upper (x : ℚ) (om : ℤ) (hom : 0 ≤ om) :
    |truncInt (gclamp x 0 (om : ℚ))| ≤ om := by
  have hle : (0 : ℚ) ≤ (om : ℚ) := by exact_mod_cast hom
  have hmem := gclamp_mem x hle
  have h1 : ((0 : ℤ) : ℚ) ≤ gclamp x 0 (om : ℚ) := by
    simpa using hmem.1
  have h2 := truncInt_mem h1 hmem.2
  rw [abs_le]
  exact ⟨by linarith [h2.1], h2.2⟩

/-- Bounds for the truncated lower-side clamp `CLAMP (x, -om, 0)`. -/
theorem abs_truncInt_gclamp_lower (x : ℚ) (om : ℤ) (hom : 0 ≤ om) :
    |truncInt (gclamp x (-(om : ℚ)) 0)| ≤ om := by
  have hle : -(om : ℚ) ≤ 0 := by
    simp only [neg_nonpos]
    exact_mod_cast hom
  have hmem := gclamp_mem x hle
  have h1 : ((-om : ℤ) : ℚ) ≤ gclamp x (-(om : ℚ)) 0 := by
    push_cast
    exact hmem.1
  have h2' : gclamp x (-(om : ℚ)) 0 ≤ ((0 : ℤ) : ℚ) := by
    simpa using hmem.2
  have h2 := truncInt_mem h1 h2'
  rw [abs_le]
  exact ⟨h2.1, by linarith [h2.2]⟩

/-- The in-range branch preserves the overshoot bound. -/
theorem no_overshoot_od_step (vo : ℚ) (om : ℤ) (a : Axis) (inc : ℚ)
    (s : Bool) (hom : 0 ≤ om) (h : |a.overshot_dist| ≤ om) :
    |(axis_scroll_no_overshoot vo om a inc s).1.overshot_dist| ≤ om := by
  unfold axis_scroll_no_overshoot
  dsimp only
  split_ifs
  · exact abs_truncInt_gclamp_upper _ om hom
  · exact h
  · exact abs_truncInt_gclamp_lower _ om hom
  · exact h
  · exact h
  · exact h

/-- The bounce branch preserves the overshoot bound. -/
theorem bounce_od_step (bs : ℕ) (om : ℤ) (a : Axis)
    (hom : 0 ≤ om) (h : |a.overshot_dist| ≤ om) :
    |(axis_scroll_bounce bs om a).overshot_dist| ≤ om := by
  unfold axis_scroll_bounce
  dsimp only
  split_ifs
  · exact abs_truncInt_gclamp_upper _ om hom
  · exact abs_truncInt_gclamp_upper _ om hom
  · exact abs_truncInt_gclamp_upper _ om hom
  · exact abs_truncInt_gclamp_upper _ om hom
  · exact abs_truncInt_gclamp_lower _ om hom
  · exact abs_truncInt_gclamp_lower _ om hom
  · exact abs_truncInt_gclamp_lower _ om hom
  · exact abs_truncInt_gclamp_lower _ om hom
  · exact h

/-- The pressed branch preserves the overshoot bound. -/
theorem pressed_od_step (om : ℤ) (a : Axis) (inc : ℚ)
    (hom : 0 ≤ om) (h : |a.overshot_dist| ≤ om) :
    |(axis_scroll_pressed om a inc).overshot_dist| ≤ om := by
  unfold axis_scroll_pressed
  dsimp only
  split_ifs
  · exact abs_truncInt_gclamp_upper _ om hom
  · rw [show (-1 * (om : ℚ)) = -(om : ℚ) by ring]
    exact abs_truncInt_gclamp_lower _ om hom
  · exact h

/-- One call of `hildon_pannable_axis_scroll` preserves the overshoot
bound `|overshot_dist| ≤ overshoot_max`, whatever the button state, the
velocity and the scroll amount. -/
theorem axis_scroll_overshoot_step (bp : Bool) (bs : ℕ) (vo : ℚ)
    (om : ℤ) (a : Axis) (inc : ℚ) (s : Bool)
    (hom : 0 ≤ om) (h : |a.overshot_dist| ≤ om) :
    |(hildon_pannable_axis_scroll bp bs vo om a inc s).1.overshot_dist|
      ≤ om := by
  unfold hildon_pannable_axis_scroll
  split_ifs
  · exact no_overshoot_od_step vo om a inc s hom h
  · exact pressed_od_step om a inc hom h
  · exact bounce_od_step bs om a hom h

/-- One element of a call history: the button state, the externally set
velocity, and the scroll amount for one `hildon_pannable_axis_scroll`
call. -/
def axisCall (bs : ℕ) (vo : ℚ) (om : ℤ) (a : Axis) (c : Bool × ℚ × ℚ) :
    Axis :=
  (hildon_pannable_axis_scroll c.1 bs vo om { a with vel := c.2.1 }
    c.2.2 true).1

/-- C2: along any sequence of `hildon_pannable_axis_scroll` calls — any
button states, release velocities and scroll amounts, i.e. any tick
history — the overshoot distance stays within `[-overshoot_max,
overshoot_max]` (every assignment clamps into `[0, overshoot_max]` or
`[-overshoot_max, 0]` before the `gint` truncation). -/
theorem overshoot_always_bounded (bs : ℕ) (vo : ℚ) (om : ℤ)
    (calls : List (Bool × ℚ × ℚ)) (a : Axis)
    (hom : 0 ≤ om) (h : |a.overshot_dist| ≤ om) :
    |(calls.foldl (axisCall bs vo om) a).overshot_dist| ≤ om := by
  induction calls generalizing a with
  | nil => exact h
  | cons c cs ih =>
      rw [List.foldl_cons]
      apply ih
      exact axis_scroll_overshoot_step c.1 bs vo om
        { a with vel := c.2.1 } c.2.2 true hom h

/-- C2 witness: the theorem applied to a two-call history (a released
tick at velocity 5, then a pressed drag of increment 4) from overshoot
distance 3 with `overshoot_max = 10`. -/
theorem overshoot_always_bounded_witness :
    (0 : ℤ) ≤ 10 ∧
    |(⟨⟨0, 0, 100, 40⟩, 2, 1, 3, -1⟩ : Axis).overshot_dist| ≤ 10 ∧
    |([(false, 5, 2), (true, -7, 4)].foldl (axisCall 3 (130 : ℚ) 10)
      ⟨⟨0, 0, 100, 40⟩, 2, 1, 3, -1⟩).overshot_dist| ≤ 10 :=
  ⟨by decide, by decide,
    overshoot_always_bounded 3 130 10 [(false, 5, 2), (true, -7, 4)]
      ⟨⟨0, 0, 100, 40⟩, 2, 1, 3, -1⟩ (by decide) (by decide)⟩

/-! ## C9 -/

/-- `hildon_pannable_area_scroll` never changes the button state. -/
theorem scroll_button_pressed (cfg : Cfg) (st : PState) (xi yi : ℚ) :
    (hildon_pannable_area_scroll cfg st xi yi).button_pressed
      = st.button_pressed := by
  unfold hildon_pannable_area_scroll
  dsimp only
  split_ifs <;> rfl

/-- C9: with a scroll-to target set on an axis whose position stays in
the valid range, a `hildon_pannable_axis_scroll` tick (a) on a crossing
tick — `position - velocity` at or past the target in the direction of
motion — sets the position exactly to the (in-range) target, clears the
target and zeroes the velocity, (b) otherwise moves the position to
`position - velocity` leaving velocity and target alone, (c) never moves
the position past the target in the direction of motion; and (d) while a
target is pending after the scroll phase of a timeout tick, the tick
decays each velocity by `decel` only while its magnitude is at least
1.5, leaves it untouched below that, and keeps the timer running
(returns TRUE). -/
theorem axis_scroll_to_target (bp : Bool) (bs : ℕ) (vo : ℚ) (om : ℤ)
    (a : Axis) (inc : ℚ) (s : Bool)
    (ho : a.overshooting = 0)
    (hlo : ¬(a.adj.value - inc < a.adj.lower))
    (hhi : ¬(a.adj.value - inc > a.adj.upper - a.adj.pageSize))
    (ht : a.scroll_to ≠ -1)
    (htlo : a.adj.lower ≤ a.scroll_to)
    (hthi : a.scroll_to ≤ a.adj.upper - a.adj.pageSize) :
    (((inc < 0 ∧ a.scroll_to ≤ a.adj.value - inc) ∨
      (inc > 0 ∧ a.scroll_to ≥ a.adj.value - inc)) →
      (hildon_pannable_axis_scroll bp bs vo om a inc s).1.adj.value
        = a.scroll_to ∧
      (hildon_pannable_axis_scroll bp bs vo om a inc s).1.scroll_to = -1 ∧
      (hildon_pannable_axis_scroll bp bs vo om a inc s).1.vel = 0) ∧
    (¬((inc < 0 ∧ a.scroll_to ≤ a.adj.value - inc) ∨
       (inc > 0 ∧ a.scroll_to ≥ a.adj.value - inc)) →
      (hildon_pannable_axis_scroll bp bs vo om a inc s).1.adj.value
        = a.adj.value - inc ∧
      (hildon_pannable_axis_scroll bp bs vo om a inc s).1.vel = a.vel ∧
      (hildon_pannable_axis_scroll bp bs vo om a inc s).1.scroll_to
        = a.scroll_to) ∧
    (inc > 0 →
      (hildon_pannable_axis_scroll bp bs vo om a inc s).1.adj.value
        ≥ a.scroll_to) ∧
    (inc < 0 →
      (hildon_pannable_axis_scroll bp bs vo om a inc s).1.adj.value
        ≤ a.scroll_to) ∧
    (∀ (cfg : Cfg) (st : PState),
      cfg.enabled = true → cfg.mode = Mode.auto → st.button_pressed = false →
      (hildon_pannable_area_scroll cfg st st.ax.vel
        st.ay.vel).ax.overshot_dist = 0 →
      (hildon_pannable_area_scroll cfg st st.ax.vel
        st.ay.vel).ay.overshot_dist = 0 →
      (hildon_pannable_area_scroll cfg st st.ax.vel
        st.ay.vel).ax.scroll_to ≠ -1 →
      (tick cfg st).ax.vel =
        (if |(hildon_pannable_area_scroll cfg st st.ax.vel
            st.ay.vel).ax.vel| ≥ 3/2 then
          (hildon_pannable_area_scroll cfg st st.ax.vel st.ay.vel).ax.vel
            * cfg.decel
        else
          (hildon_pannable_area_scroll cfg st st.ax.vel st.ay.vel).ax.vel) ∧
      (tick cfg st).ay.vel =
        (if |(hildon_pannable_area_scroll cfg st st.ax.vel
            st.ay.vel).ay.vel| ≥ 3/2 then
          (hildon_pannable_area_scroll cfg st st.ax.vel st.ay.vel).ay.vel
            * cfg.decel
        else
          (hildon_pannable_area_scroll cfg st st.ax.vel st.ay.vel).ay.vel) ∧
      (hildon_pannable_area_timeout cfg st).ret = true) := by
  have hin : a.adj.lower ≤ a.adj.value - inc := le_of_not_lt hlo
  have hin2 : a.adj.value - inc ≤ a.adj.upper - a.adj.pageSize :=
    le_of_not_lt hhi
  have hbranch : hildon_pannable_axis_scroll bp bs vo om a inc s
      = axis_scroll_no_overshoot vo om a inc s := by
    unfold hildon_pannable_axis_scroll
    rw [if_pos ho]
  refine ⟨?_, ?_, ?_, ?_, ?_⟩
  · intro hcross
    rw [hbranch]
    unfold axis_scroll_no_overshoot
    dsimp only
    rw [if_neg hlo, if_neg hhi, if_pos ⟨ht, hcross⟩]
    dsimp only
    rw [gtk_adjustment_set_value_eq htlo hthi]
    exact ⟨rfl, rfl, rfl⟩
  · intro hcross
    rw [hbranch]
    unfold axis_scroll_no_overshoot
    dsimp only
    rw [if_neg hlo, if_neg hhi, if_neg (fun hc => hcross hc.2)]
    dsimp only
    rw [gtk_adjustment_set_value_eq hin hin2]
    exact ⟨rfl, rfl, rfl⟩
  · intro hpos
    rw [hbranch]
    unfold axis_scroll_no_overshoot
    dsimp only
    rw [if_neg hlo, if_neg hhi]
    by_cases hc : a.scroll_to ≠ -1 ∧
        ((inc < 0 ∧ a.scroll_to ≤ a.adj.value - inc) ∨
          (inc > 0 ∧ a.scroll_to ≥ a.adj.value - inc))
    · rw [if_pos hc]
      dsimp only
      rw [gtk_adjustment_set_value_eq htlo hthi]
    · rw [if_neg hc]
      dsimp only
      rw [gtk_adjustment_set_value_eq hin hin2]
      have hnc : ¬(a.scroll_to ≥ a.adj.value - inc) := by
        intro hge
        exact hc ⟨ht, Or.inr ⟨hpos, hge⟩⟩
      exact le_of_lt (lt_of_not_ge hnc)
  · intro hneg
    rw [hbranch]
    unfold axis_scroll_no_overshoot
    dsimp only
    rw [if_neg hlo, if_neg hhi]
    by_cases hc : a.scroll_to ≠ -1 ∧
        ((inc < 0 ∧ a.scroll_to ≤ a.adj.value - inc) ∨
          (inc > 0 ∧ a.scroll_to ≥ a.adj.value - inc))
    · rw [if_pos hc]
      dsimp only
      rw [gtk_adjustment_set_value_eq htlo hthi]
    · rw [if_neg hc]
      dsimp only
      rw [gtk_adjustment_set_value_eq hin hin2]
      have hnc : ¬(a.scroll_to ≤ a.adj.value - inc) := by
        intro hle
        exact hc ⟨ht, Or.inl ⟨hneg, hle⟩⟩
      exact le_of_lt (lt_of_not_le hnc)
  · intro cfg st hen hmode hbp hodx hody htx
    have hnp : ¬(¬cfg.enabled ∨ cfg.mode = Mode.push) := by
      rw [hen, hmode]
      simp
    have hbp1 : (hildon_pannable_area_scroll cfg st st.ax.vel
        st.ay.vel).button_pressed = false := by
      rw [scroll_button_pressed, hbp]
    unfold tick hildon_pannable_area_timeout
    rw [if_neg hnp]
    dsimp only
    rw [hbp1]
    rw [if_pos (show ¬(false = true) by decide)]
    rw [if_pos ⟨hody, hodx⟩, if_pos (Or.inl htx)]
    exact ⟨rfl, rfl, rfl⟩

/-- C9 witness: the theorem applied to an axis at value 500 in
`[0, 600]` with pending target 200 and tick increment 10. -/
theorem axis_scroll_to_target_witness :
    ((((10:ℚ) < 0 ∧ (200:ℚ) ≤ (500:ℚ) - 10) ∨
      ((10:ℚ) > 0 ∧ (200:ℚ) ≥ (500:ℚ) - 10)) →
      (hildon_pannable_axis_scroll false 3 130 10
        ⟨⟨500, 0, 1000, 400⟩, 0, 0, 0, 200⟩ 10 true).1.adj.value = 200 ∧
      (hildon_pannable_axis_scroll false 3 130 10
        ⟨⟨500, 0, 1000, 400⟩, 0, 0, 0, 200⟩ 10 true).1.scroll_to = -1 ∧
      (hildon_pannable_axis_scroll false 3 130 10
        ⟨⟨500, 0, 1000, 400⟩, 0, 0, 0, 200⟩ 10 true).1.vel = 0) ∧
    (¬(((10:ℚ) < 0 ∧ (200:ℚ) ≤ (500:ℚ) - 10) ∨
       ((10:ℚ) > 0 ∧ (200:ℚ) ≥ (500:ℚ) - 10)) →
      (hildon_pannable_axis_scroll false 3 130 10
        ⟨⟨500, 0, 1000, 400⟩, 0, 0, 0, 200⟩ 10 true).1.adj.value
        = (500:ℚ) - 10 ∧
      (hildon_pannable_axis_scroll false 3 130 10
        ⟨⟨500, 0, 1000, 400⟩, 0, 0, 0, 200⟩ 10 true).1.vel = 0 ∧
      (hildon_pannable_axis_scroll false 3 130 10
        ⟨⟨500, 0, 1000, 400⟩, 0, 0, 0, 200⟩ 10 true).1.scroll_to = 200) ∧
    ((10:ℚ) > 0 →
      (hildon_pannable_axis_scroll false 3 130 10
        ⟨⟨500, 0, 1000, 400⟩, 0, 0, 0, 200⟩ 10 true).1.adj.value ≥ 200) ∧
    ((10:ℚ) < 0 →
      (hildon_pannable_axis_scroll false 3 130 10
        ⟨⟨500, 0, 1000, 400⟩, 0, 0, 0, 200⟩ 10 true).1.adj.value ≤ 200) ∧
    (∀ (cfg : Cfg) (st : PState),
      cfg.enabled = true → cfg.mode = Mode.auto → st.button_pressed = false →
      (hildon_pannable_area_scroll cfg st st.ax.vel
        st.ay.vel).ax.overshot_dist = 0 →
      (hildon_pannable_area_scroll cfg st st.ax.vel
        st.ay.vel).ay.overshot_dist = 0 →
      (hildon_pannable_area_scroll cfg st st.ax.vel
        st.ay.vel).ax.scroll_to ≠ -1 →
      (tick cfg st).ax.vel =
        (if |(hildon_pannable_area_scroll cfg st st.ax.vel
            st.ay.vel).ax.vel| ≥ 3/2 then
          (hildon_pannable_area_scroll cfg st st.ax.vel st.ay.vel).ax.vel
            * cfg.decel
        else
          (hildon_pannable_area_scroll cfg st st.ax.vel st.ay.vel).ax.vel) ∧
      (tick cfg st).ay.vel =
        (if |(hildon_pannable_area_scroll cfg st st.ax.vel
            st.ay.vel).ay.vel| ≥ 3/2 then
          (hildon_pannable_area_scroll cfg st st.ax.vel st.ay.vel).ay.vel
            * cfg.decel
        else
          (hildon_pannable_area_scroll cfg st st.ax.vel st.ay.vel).ay.vel) ∧
      (hildon_pannable_area_timeout cfg st).ret = true) :=
  axis_scroll_to_target false 3 130 10 ⟨⟨500, 0, 1000, 400⟩, 0, 0, 0, 200⟩
    10 true rfl (by norm_num) (by norm_num) (by norm_num) (by norm_num)
    (by norm_num)

/-! ## C4 -/

/-- Pushing further into a positive overshoot keeps the distance at
least 1. -/
theorem od_push_pos (od : ℤ) (v : ℚ) (om : ℤ) (h1 : 1 ≤ od)
    (hod : (od : ℚ) ≤ (om : ℚ)) (hv : 0 < v) :
    1 ≤ truncInt (gclamp ((od : ℚ) + v) 0 (om : ℚ)) := by
  have h1q : (1 : ℚ) ≤ (od : ℚ) := by exact_mod_cast h1
  unfold gclamp
  split_ifs with hhi hlo
  · rw [truncInt_intCast]
    exact le_trans h1 (by exact_mod_cast hod)
  · exfalso
    linarith
  · unfold truncInt
    rw [if_pos (by linarith)]
    exact Int.le_floor.mpr (by push_cast; linarith)

/-- Walking a positive overshoot back with a negative velocity strictly
decreases the (integer) distance, and it stays nonnegative. -/
theorem od_walk_pos (od : ℤ) (v : ℚ) (om : ℤ) (h1 : 1 ≤ od)
    (hod : (od : ℚ) ≤ (om : ℚ)) (hv : v < 0) :
    truncInt (gclamp ((od : ℚ) + v) 0 (om : ℚ)) ≤ od - 1 ∧
    0 ≤ truncInt (gclamp ((od : ℚ) + v) 0 (om : ℚ)) := by
  have h1q : (1 : ℚ) ≤ (od : ℚ) := by exact_mod_cast h1
  have hnothi : ¬((od : ℚ) + v > (om : ℚ)) := by
    push_neg
    linarith
  unfold gclamp
  rw [if_neg hnothi]
  split_ifs with hlo
  · have h0 : truncInt 0 = 0 := by norm_num [truncInt]
    rw [h0]
    omega
  · push_neg at hlo
    unfold truncInt
    rw [if_pos hlo]
    have hlt : ⌊(od : ℚ) + v⌋ < od := Int.floor_lt.mpr (by push_cast; linarith)
    have hge : 0 ≤ ⌊(od : ℚ) + v⌋ := Int.le_floor.mpr (by push_cast; linarith)
    omega

/-- Pushing further into a negative overshoot keeps the distance at most
-1. -/
theorem od_push_neg (od : ℤ) (v : ℚ) (om : ℤ) (h1 : od ≤ -1)
    (hod : -(om : ℚ) ≤ (od : ℚ)) (hv : v < 0) :
    truncInt (gclamp ((od : ℚ) + v) (-(om : ℚ)) 0) ≤ -1 := by
  have h1q : (od : ℚ) ≤ -1 := by exact_mod_cast h1
  unfold gclamp
  split_ifs with hhi hlo
  · exfalso
    linarith
  · have heq : truncInt (-(om : ℚ)) = -om := by
      rw [show (-(om : ℚ)) = ((-om : ℤ) : ℚ) by push_cast; ring,
        truncInt_intCast]
    rw [heq]
    have : -(om : ℚ) ≤ -1 := le_trans hod h1q
    exact_mod_cast this
  · unfold truncInt
    rw [if_neg (by push_neg; linarith)]
    have : ⌈(od : ℚ) + v⌉ ≤ -1 :=
      Int.ceil_le.mpr (by push_cast; linarith)
    exact this

/-- Walking a negative overshoot back with a positive velocity strictly
increases the (integer) distance toward zero, and it stays nonpositive. -/
theorem od_walk_neg (od : ℤ) (v : ℚ) (om : ℤ) (h1 : od ≤ -1)
    (hod : -(om : ℚ) ≤ (od : ℚ)) (hv : 0 < v) :
    od + 1 ≤ truncInt (gclamp ((od : ℚ) + v) (-(om : ℚ)) 0) ∧
    truncInt (gclamp ((od : ℚ) + v) (-(om : ℚ)) 0) ≤ 0 := by
  have h1q : (od : ℚ) ≤ -1 := by exact_mod_cast h1
  have hnotlo : ¬((od : ℚ) + v < -(om : ℚ)) := by
    push_neg
    linarith
  unfold gclamp
  split_ifs with hhi
  · have h0 : truncInt 0 = 0 := by norm_num [truncInt]
    rw [h0]
    omega
  · push_neg at hhi
    unfold truncInt
    split_ifs with hsgn
    · have hle : ⌊(od : ℚ) + v⌋ ≤ 0 := by
        have h := Int.floor_le_floor (α := ℚ) hhi
        simpa using h
      have hge : (0 : ℤ) ≤ ⌊(od : ℚ) + v⌋ := Int.le_floor.mpr (by simpa)
      omega
    · have hgt : od < ⌈(od : ℚ) + v⌉ := by
        have hq : (od : ℚ) < (od : ℚ) + v := by linarith
        have := Int.le_ceil ((od : ℚ) + v)
        have : (od : ℚ) < (⌈(od : ℚ) + v⌉ : ℚ) := lt_of_lt_of_le hq this
        exact_mod_cast this
      have hle : ⌈(od : ℚ) + v⌉ ≤ 0 := Int.ceil_le.mpr (by simpa)
      omega

/-- Termination measure for the released bounce-back: while the velocity
still pushes into the overshoot the measure counts the remaining steps
to the `bounce_steps` reversal (plus room `om + 3` for the walk-back);
afterwards it counts the remaining integer overshoot distance. -/
def bounceMeasure (bs : ℕ) (om : ℤ) (a : Axis) : ℕ :=
  if a.overshot_dist > 0 then
    (if a.vel > 0 then om.toNat + 3 + (bs - min a.overshooting bs)
     else a.overshot_dist.toNat + 1)
  else if a.overshot_dist < 0 then
    (if a.vel < 0 then om.toNat + 3 + (bs - min a.overshooting bs)
     else (-a.overshot_dist).toNat + 1)
  else if a.overshooting ≠ 0 then 1 else 0

/-- One released bounce step with positive overshoot: the invariants are
preserved and the measure strictly decreases. -/
theorem bounce_step_pos (bs : ℕ) (om : ℤ) (a : Axis)
    (hob : |a.overshot_dist| ≤ om)
    (hvne : a.vel ≠ 0)
    (ho : a.overshooting ≠ 0)
    (hodp : a.overshot_dist > 0) :
    ((axis_scroll_bounce bs om a).overshot_dist ≠ 0 →
      (axis_scroll_bounce bs om a).vel ≠ 0) ∧
    (axis_scroll_bounce bs om a).overshooting ≠ 0 ∧
    bounceMeasure bs om (axis_scroll_bounce bs om a) <
      bounceMeasure bs om a := by
  have hod1 : 1 ≤ a.overshot_dist := hodp
  have hodle : a.overshot_dist ≤ om := (abs_le.mp hob).2
  have hodleq : (a.overshot_dist : ℚ) ≤ (om : ℚ) := by exact_mod_cast hodle
  have hom1 : (1 : ℤ) ≤ om := le_trans hod1 hodle
  have homq : (0 : ℚ) < (om : ℚ) := by exact_mod_cast hom1
  have hodq : (0 : ℚ) < (a.overshot_dist : ℚ) := by exact_mod_cast hodp
  have hMold : bounceMeasure bs om a =
      (if a.vel > 0 then om.toNat + 3 + (bs - min a.overshooting bs)
       else a.overshot_dist.toNat + 1) := by
    unfold bounceMeasure
    rw [if_pos hodp]
  rcases lt_or_gt_of_ne hvne with hv | hv
  · -- velocity already reversed: walk back
    have hnc1 : ¬(a.overshooting < bs ∧ a.vel > 0) := by
      intro hc
      exact absurd hc.2 (not_lt.mpr hv.le)
    have hnc2 : ¬(a.overshooting ≥ bs ∧ a.vel > 0) := by
      intro hc
      exact absurd hc.2 (not_lt.mpr hv.le)
    by_cases hc3 : a.overshooting > 1 ∧ a.vel < 0
    · -- floor walk-back
      have heq : axis_scroll_bounce bs om a = { a with
          overshooting := a.overshooting,
          vel := min ((a.overshot_dist : ℚ) * (4/5) * (-1)) (-10),
          overshot_dist := truncInt (gclamp ((a.overshot_dist : ℚ) +
            min ((a.overshot_dist : ℚ) * (4/5) * (-1)) (-10))
            0 (om : ℚ)) } := by
        unfold axis_scroll_bounce
        rw [if_pos hodp]
        dsimp only
        rw [if_neg hnc1, if_neg hnc2, if_pos hc3]
      have hvneg : min ((a.overshot_dist : ℚ) * (4/5) * (-1)) (-10) < 0 :=
        lt_of_le_of_lt (min_le_right _ _) (by norm_num)
      have hwalk := od_walk_pos a.overshot_dist
        (min ((a.overshot_dist : ℚ) * (4/5) * (-1)) (-10)) om hod1 hodleq
        hvneg
      rw [heq, hMold]
      refine ⟨fun _ => ne_of_lt hvneg, ho, ?_⟩
      rw [if_neg (not_lt.mpr hv.le)]
      unfold bounceMeasure
      dsimp only
      by_cases hz : truncInt (gclamp ((a.overshot_dist : ℚ) +
          min ((a.overshot_dist : ℚ) * (4/5) * (-1)) (-10)) 0 (om : ℚ)) > 0
      · rw [if_pos hz, if_neg (not_lt.mpr hvneg.le)]
        omega
      · rw [if_neg hz]
        rw [if_neg (by omega), if_pos ho]
        omega
    · -- small counter: velocity kept, distance still walks back
      have heq : axis_scroll_bounce bs om a = { a with
          overshooting := a.overshooting,
          vel := a.vel,
          overshot_dist := truncInt (gclamp ((a.overshot_dist : ℚ) + a.vel)
            0 (om : ℚ)) } := by
        unfold axis_scroll_bounce
        rw [if_pos hodp]
        dsimp only
        rw [if_neg hnc1, if_neg hnc2, if_neg hc3]
      have hwalk := od_walk_pos a.overshot_dist a.vel om hod1 hodleq hv
      rw [heq, hMold]
      refine ⟨fun _ => hvne, ho, ?_⟩
      rw [if_neg (not_lt.mpr hv.le)]
      unfold bounceMeasure
      dsimp only
      by_cases hz : truncInt (gclamp ((a.overshot_dist : ℚ) + a.vel)
          0 (om : ℚ)) > 0
      · rw [if_pos hz, if_neg (not_lt.mpr hv.le)]
        omega
      · rw [if_neg hz]
        rw [if_neg (by omega), if_pos ho]
        omega
  · -- velocity still pushes into the overshoot
    by_cases hc1 : a.overshooting < bs ∧ a.vel > 0
    · -- decaying push, counter increments
      have heq : axis_scroll_bounce bs om a = { a with
          overshooting := a.overshooting + 1,
          vel := ((a.overshot_dist : ℚ) / (om : ℚ)) * a.vel,
          overshot_dist := truncInt (gclamp ((a.overshot_dist : ℚ) +
            ((a.overshot_dist : ℚ) / (om : ℚ)) * a.vel) 0 (om : ℚ)) } := by
        unfold axis_scroll_bounce
        rw [if_pos hodp]
        dsimp only
        rw [if_pos hc1]
      have hvpos : 0 < ((a.overshot_dist : ℚ) / (om : ℚ)) * a.vel :=
        mul_pos (div_pos hodq homq) hv
      have hpush := od_push_pos a.overshot_dist
        (((a.overshot_dist : ℚ) / (om : ℚ)) * a.vel) om hod1 hodleq hvpos
      rw [heq, hMold]
      refine ⟨fun _ => ne_of_gt hvpos, Nat.succ_ne_zero a.overshooting, ?_⟩
      rw [if_pos hv]
      unfold bounceMeasure
      dsimp only
      rw [if_pos (by omega : (0:ℤ) < truncInt (gclamp ((a.overshot_dist : ℚ) +
        ((a.overshot_dist : ℚ) / (om : ℚ)) * a.vel) 0 (om : ℚ))),
        if_pos hvpos]
      have hlt : a.overshooting < bs := hc1.1
      omega
    · -- reversal step
      have hge : a.overshooting ≥ bs := by
        rcases not_and_or.mp hc1 with h | h
        · exact le_of_not_lt h
        · exact absurd hv h
      have heq : axis_scroll_bounce bs om a = { a with
          overshooting := a.overshooting,
          vel := a.vel * (-1),
          overshot_dist := truncInt (gclamp ((a.overshot_dist : ℚ) +
            a.vel * (-1)) 0 (om : ℚ)) } := by
        unfold axis_scroll_bounce
        rw [if_pos hodp]
        dsimp only
        rw [if_neg hc1, if_pos ⟨hge, hv⟩]
      have hvneg : a.vel * (-1) < 0 := by linarith
      have hwalk := od_walk_pos a.overshot_dist (a.vel * (-1)) om hod1
        hodleq hvneg
      rw [heq, hMold]
      refine ⟨fun _ => ne_of_lt hvneg, ho, ?_⟩
      rw [if_pos hv]
      unfold bounceMeasure
      dsimp only
      have hmin : min a.overshooting bs = bs := min_eq_right hge
      by_cases hz : truncInt (gclamp ((a.overshot_dist : ℚ) +
          a.vel * (-1)) 0 (om : ℚ)) > 0
      · rw [if_pos hz, if_neg (not_lt.mpr hvneg.le)]
        have : truncInt (gclamp ((a.overshot_dist : ℚ) + a.vel * (-1))
            0 (om : ℚ)) ≤ om - 1 := by omega
        omega
      · rw [if_neg hz]
        rw [if_neg (by omega), if_pos ho]
        omega

/-- One released bounce step with negative overshoot: the invariants are
preserved and the measure strictly decreases. -/
theorem bounce_step_neg (bs : ℕ) (om : ℤ) (a : Axis)
    (hob : |a.overshot_dist| ≤ om)
    (hvne : a.vel ≠ 0)
    (ho : a.overshooting ≠ 0)
    (hodn : a.overshot_dist < 0) :
    ((axis_scroll_bounce bs om a).overshot_dist ≠ 0 →
      (axis_scroll_bounce bs om a).vel ≠ 0) ∧
    (axis_scroll_bounce bs om a).overshooting ≠ 0 ∧
    bounceMeasure bs om (axis_scroll_bounce bs om a) <
      bounceMeasure bs om a := by
  have hod1 : a.overshot_dist ≤ -1 := by omega
  have hodge : -om ≤ a.overshot_dist := (abs_le.mp hob).1
  have hodgeq : -(om : ℚ) ≤ (a.overshot_dist : ℚ) := by exact_mod_cast hodge
  have hom1 : (1 : ℤ) ≤ om := by omega
  have homq : (0 : ℚ) < (om : ℚ) := by exact_mod_cast hom1
  have hodq : (a.overshot_dist : ℚ) < 0 := by exact_mod_cast hodn
  have hnotpos : ¬(a.overshot_dist > 0) := by omega
  have hMold : bounceMeasure bs om a =
      (if a.vel < 0 then om.toNat + 3 + (bs - min a.overshooting bs)
       else (-a.overshot_dist).toNat + 1) := by
    unfold bounceMeasure
    rw [if_neg hnotpos, if_pos hodn]
  rcases lt_or_gt_of_ne hvne with hv | hv
  · -- velocity still pushes into the (negative) overshoot
    by_cases hc1 : a.overshooting < bs ∧ a.vel < 0
    · -- decaying push, counter increments
      have heq : axis_scroll_bounce bs om a = { a with
          overshooting := a.overshooting + 1,
          vel := ((a.overshot_dist : ℚ) / (om : ℚ)) * a.vel * (-1),
          overshot_dist := truncInt (gclamp ((a.overshot_dist : ℚ) +
            ((a.overshot_dist : ℚ) / (om : ℚ)) * a.vel * (-1))
            (-(om : ℚ)) 0) } := by
        unfold axis_scroll_bounce
        rw [if_neg hnotpos, if_pos hodn]
        dsimp only
        rw [if_pos hc1]
      have hvneg : ((a.overshot_dist : ℚ) / (om : ℚ)) * a.vel * (-1) < 0 := by
        have hdiv : (a.overshot_dist : ℚ) / (om : ℚ) < 0 :=
          div_neg_of_neg_of_pos hodq homq
        nlinarith
      have hpush := od_push_neg a.overshot_dist
        (((a.overshot_dist : ℚ) / (om : ℚ)) * a.vel * (-1)) om hod1 hodgeq
        hvneg
      rw [heq, hMold]
      refine ⟨fun _ => ne_of_lt hvneg, Nat.succ_ne_zero a.overshooting, ?_⟩
      rw [if_pos hv]
      unfold bounceMeasure
      dsimp only
      rw [if_neg (by omega : ¬(truncInt (gclamp ((a.overshot_dist : ℚ) +
          ((a.overshot_dist : ℚ) / (om : ℚ)) * a.vel * (-1))
          (-(om : ℚ)) 0) > 0)),
        if_pos (by omega : truncInt (gclamp ((a.overshot_dist : ℚ) +
          ((a.overshot_dist : ℚ) / (om : ℚ)) * a.vel * (-1))
          (-(om : ℚ)) 0) < 0),
        if_pos hvneg]
      have hlt : a.overshooting < bs := hc1.1
      omega
    · -- reversal step
      have hge : a.overshooting ≥ bs := by
        rcases not_and_or.mp hc1 with h | h
        · exact le_of_not_lt h
        · exact absurd hv h
      have heq : axis_scroll_bounce bs om a = { a with
          overshooting := a.overshooting,
          vel := a.vel * (-1),
          overshot_dist := truncInt (gclamp ((a.overshot_dist : ℚ) +
            a.vel * (-1)) (-(om : ℚ)) 0) } := by
        unfold axis_scroll_bounce
        rw [if_neg hnotpos, if_pos hodn]
        dsimp only
        rw [if_neg hc1, if_pos ⟨hge, hv⟩]
      have hvpos : 0 < a.vel * (-1) := by linarith
      have hwalk := od_walk_neg a.overshot_dist (a.vel * (-1)) om hod1
        hodgeq hvpos
      rw [heq, hMold]
      refine ⟨fun _ => ne_of_gt hvpos, ho, ?_⟩
      rw [if_pos hv]
      unfold bounceMeasure
      dsimp only
      have hmin : min a.overshooting bs = bs := min_eq_right hge
      rw [if_neg (by omega : ¬(truncInt (gclamp ((a.overshot_dist : ℚ) +
        a.vel * (-1)) (-(om : ℚ)) 0) > 0))]
      by_cases hz : truncInt (gclamp ((a.overshot_dist : ℚ) +
          a.vel * (-1)) (-(om : ℚ)) 0) < 0
      · rw [if_pos hz, if_neg (not_lt.mpr hvpos.le)]
        omega
      · rw [if_neg hz]
        rw [if_pos ho]
        omega
  · -- velocity already reversed: walk back toward zero
    have hnc1 : ¬(a.overshooting < bs ∧ a.vel < 0) := by
      intro hc
      exact absurd hc.2 (not_lt.mpr hv.le)
    have hnc2 : ¬(a.overshooting ≥ bs ∧ a.vel < 0) := by
      intro hc
      exact absurd hc.2 (not_lt.mpr hv.le)
    by_cases hc3 : a.overshooting > 1 ∧ a.vel > 0
    · -- floor walk-back
      have heq : axis_scroll_bounce bs om a = { a with
          overshooting := a.overshooting,
          vel := max ((a.overshot_dist : ℚ) * (4/5) * (-1)) 10,
          overshot_dist := truncInt (gclamp ((a.overshot_dist : ℚ) +
            max ((a.overshot_dist : ℚ) * (4/5) * (-1)) 10)
            (-(om : ℚ)) 0) } := by
        unfold axis_scroll_bounce
        rw [if_neg hnotpos, if_pos hodn]
        dsimp only
        rw [if_neg hnc1, if_neg hnc2, if_pos hc3]
      have hvpos : (0 : ℚ) < max ((a.overshot_dist : ℚ) * (4/5) * (-1)) 10 :=
        lt_of_lt_of_le (by norm_num) (le_max_right _ _)
      have hwalk := od_walk_neg a.overshot_dist
        (max ((a.overshot_dist : ℚ) * (4/5) * (-1)) 10) om hod1 hodgeq hvpos
      rw [heq, hMold]
      refine ⟨fun _ => ne_of_gt hvpos, ho, ?_⟩
      rw [if_neg (not_lt.mpr hv.le)]
      unfold bounceMeasure
      dsimp only
      rw [if_neg (by omega : ¬(truncInt (gclamp ((a.overshot_dist : ℚ) +
        max ((a.overshot_dist : ℚ) * (4/5) * (-1)) 10) (-(om : ℚ)) 0) > 0))]
      by_cases hz : truncInt (gclamp ((a.overshot_dist : ℚ) +
          max ((a.overshot_dist : ℚ) * (4/5) * (-1)) 10) (-(om : ℚ)) 0) < 0
      · rw [if_pos hz, if_neg (not_lt.mpr hvpos.le)]
        omega
      · rw [if_neg hz, if_pos ho]
        omega
    · -- small counter: velocity kept, distance still walks back
      have heq : axis_scroll_bounce bs om a = { a with
          overshooting := a.overshooting,
          vel := a.vel,
          overshot_dist := truncInt (gclamp ((a.overshot_dist : ℚ) + a.vel)
            (-(om : ℚ)) 0) } := by
        unfold axis_scroll_bounce
        rw [if_neg hnotpos, if_pos hodn]
        dsimp only
        rw [if_neg hnc1, if_neg hnc2, if_neg hc3]
      have hwalk := od_walk_neg a.overshot_dist a.vel om hod1 hodgeq hv
      rw [heq, hMold]
      refine ⟨fun _ => hvne, ho, ?_⟩
      rw [if_neg (not_lt.mpr hv.le)]
      unfold bounceMeasure
      dsimp only
      rw [if_neg (by omega : ¬(truncInt (gclamp ((a.overshot_dist : ℚ) +
        a.vel) (-(om : ℚ)) 0) > 0))]
      by_cases hz : truncInt (gclamp ((a.overshot_dist : ℚ) + a.vel)
          (-(om : ℚ)) 0) < 0
      · rw [if_pos hz, if_neg (not_lt.mpr hv.le)]
        omega
      · rw [if_neg hz, if_pos ho]
        omega

/-- One released tick of `hildon_pannable_axis_scroll`, scrolling by the
axis velocity as `hildon_pannable_area_timeout` does. -/
def axstep (bs : ℕ) (vo : ℚ) (om : ℤ) (a : Axis) : Axis :=
  (hildon_pannable_axis_scroll false bs vo om a a.vel true).1

/-- While the overshoot flag is set and the button is up, a tick is the
bounce-back branch. -/
theorem axstep_bounce (bs : ℕ) (vo : ℚ) (om : ℤ) (a : Axis)
    (ho : a.overshooting ≠ 0) :
    axstep bs vo om a = axis_scroll_bounce bs om a := by
  unfold axstep hildon_pannable_axis_scroll
  rw [if_neg ho, if_pos (show ¬(false = true) by decide)]

/-- The settle step: at overshoot distance 0 the counter resets and the
velocity zeroes. -/
theorem bounce_settle (bs : ℕ) (om : ℤ) (a : Axis)
    (hod : a.overshot_dist = 0) :
    axis_scroll_bounce bs om a = { a with overshooting := 0, vel := 0 } := by
  unfold axis_scroll_bounce
  rw [if_neg (by omega : ¬(a.overshot_dist > 0)),
    if_neg (by omega : ¬(a.overshot_dist < 0))]

/-- The bounce measure is positive while the overshoot distance is
nonzero. -/
theorem bounceMeasure_pos (bs : ℕ) (om : ℤ) (a : Axis)
    (hod : a.overshot_dist ≠ 0) : 1 ≤ bounceMeasure bs om a := by
  unfold bounceMeasure
  split_ifs <;> omega

/-- A bounce state that has already reached distance 0 settles on the
next tick. -/
theorem bounce_done (bs : ℕ) (vo : ℚ) (om : ℤ) (a : Axis)
    (hod : a.overshot_dist = 0) (ho : a.overshooting ≠ 0) :
    ∃ k, ((axstep bs vo om)^[k] a).overshot_dist = 0 ∧
      ((axstep bs vo om)^[k+1] a).overshooting = 0 ∧
      ((axstep bs vo om)^[k+1] a).vel = 0 ∧
      ((axstep bs vo om)^[k+1] a).overshot_dist = 0 := by
  refine ⟨0, hod, ?_⟩
  have h1 : (axstep bs vo om)^[0+1] a =
      { a with overshooting := 0, vel := 0 } := by
    rw [zero_add, Function.iterate_one, axstep_bounce bs vo om a ho,
      bounce_settle bs om a hod]
  rw [h1]
  exact ⟨rfl, rfl, hod⟩

/-- Iterating released ticks from any bounce state reaches overshoot
distance 0, and the following tick resets the counter and zeroes the
velocity. -/
theorem bounce_terminates_aux (bs : ℕ) (vo : ℚ) (om : ℤ) :
    ∀ (n : ℕ) (a : Axis), bounceMeasure bs om a ≤ n →
      |a.overshot_dist| ≤ om → (a.overshot_dist ≠ 0 → a.vel ≠ 0) →
      a.overshooting ≠ 0 →
      ∃ k, ((axstep bs vo om)^[k] a).overshot_dist = 0 ∧
        ((axstep bs vo om)^[k+1] a).overshooting = 0 ∧
        ((axstep bs vo om)^[k+1] a).vel = 0 ∧
        ((axstep bs vo om)^[k+1] a).overshot_dist = 0 := by
  intro n
  induction n with
  | zero =>
      intro a hn hob hvel ho
      by_cases hod : a.overshot_dist = 0
      · exact bounce_done bs vo om a hod ho
      · exact absurd hn
          (by have := bounceMeasure_pos bs om a hod; omega)
  | succ n ih =>
      intro a hn hob hvel ho
      by_cases hod : a.overshot_dist = 0
      · exact bounce_done bs vo om a hod ho
      · have hvne := hvel hod
        have hom0 : (0 : ℤ) ≤ om := by
          have h1 : (1 : ℤ) ≤ |a.overshot_dist| := Int.one_le_abs (by omega)
          omega
        have hob' := bounce_od_step bs om a hom0 hob
        have ha' : axstep bs vo om a = axis_scroll_bounce bs om a :=
          axstep_bounce bs vo om a ho
        rcases lt_or_gt_of_ne hod with hneg | hpos
        · obtain ⟨hv', ho', hm⟩ := bounce_step_neg bs om a hob hvne ho hneg
          obtain ⟨k, h1, h2, h3, h4⟩ := ih (axis_scroll_bounce bs om a)
            (by omega) hob' hv' ho'
          refine ⟨k+1, ?_, ?_, ?_, ?_⟩ <;>
            rw [Function.iterate_succ_apply, ha']
          exacts [h1, h2, h3, h4]
        · obtain ⟨hv', ho', hm⟩ := bounce_step_pos bs om a hob hvne ho hpos
          obtain ⟨k, h1, h2, h3, h4⟩ := ih (axis_scroll_bounce bs om a)
            (by omega) hob' hv' ho'
          refine ⟨k+1, ?_, ?_, ?_, ?_⟩ <;>
            rw [Function.iterate_succ_apply, ha']
          exacts [h1, h2, h3, h4]

/-- From a positive-overshoot bounce state still pushing outward, the
velocity is reversed within `bs - overshooting + 1` ticks. -/
theorem bounce_reversal_aux (bs : ℕ) (vo : ℚ) (om : ℤ) :
    ∀ (n : ℕ) (a : Axis), bs - a.overshooting ≤ n →
      |a.overshot_dist| ≤ om → a.overshot_dist > 0 → a.vel > 0 →
      1 ≤ a.overshooting →
      ∃ k, 1 ≤ k ∧ k ≤ bs - a.overshooting + 1 ∧
        ((axstep bs vo om)^[k] a).vel < 0 := by
  have hbase : ∀ (a : Axis), a.overshot_dist > 0 → a.vel > 0 →
      1 ≤ a.overshooting → bs ≤ a.overshooting →
      ((axstep bs vo om)^[1] a).vel < 0 := by
    intro a hodp hv ho1 hge
    have hnc1 : ¬(a.overshooting < bs ∧ a.vel > 0) := by
      intro hc
      omega
    have heq : axis_scroll_bounce bs om a = { a with
        overshooting := a.overshooting,
        vel := a.vel * (-1),
        overshot_dist := truncInt (gclamp ((a.overshot_dist : ℚ) +
          a.vel * (-1)) 0 (om : ℚ)) } := by
      unfold axis_scroll_bounce
      rw [if_pos hodp]
      dsimp only
      rw [if_neg hnc1, if_pos ⟨hge, hv⟩]
    rw [Function.iterate_one, axstep_bounce bs vo om a (by omega), heq]
    dsimp only
    linarith
  intro n
  induction n with
  | zero =>
      intro a hn hob hodp hv ho1
      exact ⟨1, le_refl 1, by omega, hbase a hodp hv ho1 (by omega)⟩
  | succ n ih =>
      intro a hn hob hodp hv ho1
      by_cases hge : bs ≤ a.overshooting
      · exact ⟨1, le_refl 1, by omega, hbase a hodp hv ho1 hge⟩
      · have hc1 : a.overshooting < bs ∧ a.vel > 0 := ⟨by omega, hv⟩
        have hod1 : 1 ≤ a.overshot_dist := hodp
        have hodle : a.overshot_dist ≤ om := (abs_le.mp hob).2
        have hodleq : (a.overshot_dist : ℚ) ≤ (om : ℚ) := by
          exact_mod_cast hodle
        have hom1 : (1 : ℤ) ≤ om := le_trans hod1 hodle
        have homq : (0 : ℚ) < (om : ℚ) := by exact_mod_cast hom1
        have hodq : (0 : ℚ) < (a.overshot_dist : ℚ) := by exact_mod_cast hodp
        have heq : axis_scroll_bounce bs om a = { a with
            overshooting := a.overshooting + 1,
            vel := ((a.overshot_dist : ℚ) / (om : ℚ)) * a.vel,
            overshot_dist := truncInt (gclamp ((a.overshot_dist : ℚ) +
              ((a.overshot_dist : ℚ) / (om : ℚ)) * a.vel) 0 (om : ℚ)) } := by
          unfold axis_scroll_bounce
          rw [if_pos hodp]
          dsimp only
          rw [if_pos hc1]
        have hvpos : 0 < ((a.overshot_dist : ℚ) / (om : ℚ)) * a.vel :=
          mul_pos (div_pos hodq homq) hv
        have hpush := od_push_pos a.overshot_dist
          (((a.overshot_dist : ℚ) / (om : ℚ)) * a.vel) om hod1 hodleq hvpos
        have hom0 : (0 : ℤ) ≤ om := by omega
        have hob' := bounce_od_step bs om a hom0 hob
        have ha' : axstep bs vo om a = axis_scroll_bounce bs om a :=
          axstep_bounce bs vo om a (by omega)
        obtain ⟨k, hk1, hk2, hkv⟩ := ih (axis_scroll_bounce bs om a)
          (by rw [heq]; dsimp only; omega)
          hob'
          (by rw [heq]; dsimp only; omega)
          (by rw [heq]; dsimp only; exact hvpos)
          (by rw [heq]; dsimp only; omega)
        rw [heq] at hk2
        refine ⟨k + 1, by omega, by dsimp only at hk2; omega, ?_⟩
        rw [Function.iterate_succ_apply, ha']
        exact hkv

/-- C4: a released bounce (`overshooting ≠ 0`, nonzero overshoot
distance and velocity, distance within the configured maximum) (a)
drives `overshot_dist` to exactly 0 in finitely many
`hildon_pannable_axis_scroll` ticks, after which the next tick resets
the overshoot counter and zeroes the velocity — no indefinite
oscillation; (b) started outward at counter 1, the velocity is reversed
within `bounce_steps` ticks; (c) a walk-back tick (counter above 1,
velocity reversed) moves at no less than 10 px/tick. -/
theorem bounce_returns_overshoot_to_zero (bs : ℕ) (vo : ℚ) (om : ℤ)
    (a : Axis)
    (hob : |a.overshot_dist| ≤ om)
    (hod : a.overshot_dist ≠ 0)
    (hvel : a.vel ≠ 0)
    (ho : a.overshooting ≠ 0) :
    (∃ k, ((axstep bs vo om)^[k] a).overshot_dist = 0 ∧
       ((axstep bs vo om)^[k+1] a).overshooting = 0 ∧
       ((axstep bs vo om)^[k+1] a).vel = 0 ∧
       ((axstep bs vo om)^[k+1] a).overshot_dist = 0) ∧
    (a.overshot_dist > 0 → a.vel > 0 → a.overshooting = 1 → 1 ≤ bs →
       ∃ k, 1 ≤ k ∧ k ≤ bs ∧ ((axstep bs vo om)^[k] a).vel < 0) ∧
    (a.overshot_dist > 0 → a.vel < 0 → a.overshooting > 1 →
       (axstep bs vo om a).vel ≤ -10) := by
  refine ⟨?_, ?_, ?_⟩
  · exact bounce_terminates_aux bs vo om (bounceMeasure bs om a) a
      (le_refl _) hob (fun _ => hvel) ho
  · intro hodp hv ho1 hbs
    obtain ⟨k, hk1, hk2, hkv⟩ := bounce_reversal_aux bs vo om
      (bs - a.overshooting) a (le_refl _) hob hodp hv (by omega)
    exact ⟨k, hk1, by omega, hkv⟩
  · intro hodp hv ho2
    have hnc1 : ¬(a.overshooting < bs ∧ a.vel > 0) := by
      intro hc
      exact absurd hc.2 (not_lt.mpr hv.le)
    have hnc2 : ¬(a.overshooting ≥ bs ∧ a.vel > 0) := by
      intro hc
      exact absurd hc.2 (not_lt.mpr hv.le)
    rw [axstep_bounce bs vo om a ho]
    unfold axis_scroll_bounce
    rw [if_pos hodp]
    dsimp only
    rw [if_neg hnc1, if_neg hnc2, if_pos ⟨ho2, hv⟩]
    exact min_le_right _ _

/-- C4 witness: the theorem applied to a bounce at overshoot distance 3
(maximum 10), counter 1, outward velocity 5, `bounce_steps = 3`. -/
theorem bounce_returns_overshoot_to_zero_witness :
    (∃ k, ((axstep 3 130 10)^[k]
        ⟨⟨0, 0, 100, 40⟩, 5, 1, 3, -1⟩).overshot_dist = 0 ∧
       ((axstep 3 130 10)^[k+1]
        ⟨⟨0, 0, 100, 40⟩, 5, 1, 3, -1⟩).overshooting = 0 ∧
       ((axstep 3 130 10)^[k+1]
        ⟨⟨0, 0, 100, 40⟩, 5, 1, 3, -1⟩).vel = 0 ∧
       ((axstep 3 130 10)^[k+1]
        ⟨⟨0, 0, 100, 40⟩, 5, 1, 3, -1⟩).overshot_dist = 0) ∧
    ((3 : ℤ) > 0 → (5 : ℚ) > 0 → (1 : ℕ) = 1 → 1 ≤ 3 →
       ∃ k, 1 ≤ k ∧ k ≤ 3 ∧ ((axstep 3 130 10)^[k]
        ⟨⟨0, 0, 100, 40⟩, 5, 1, 3, -1⟩).vel < 0) ∧
    ((3 : ℤ) > 0 → (5 : ℚ) < 0 → (1 : ℕ) > 1 →
       (axstep 3 130 10 ⟨⟨0, 0, 100, 40⟩, 5, 1, 3, -1⟩).vel ≤ -10) :=
  bounce_returns_overshoot_to_zero 3 130 10
    ⟨⟨0, 0, 100, 40⟩, 5, 1, 3, -1⟩ (by norm_num) (by norm_num)
    (by norm_num) (by norm_num)

/-! ## C3 -/

/-- Coarse per-axis state of the released deceleration machinery: `1`
while the overshoot bookkeeping is active, `0` at rest, `2` while
plainly scrolling. -/
def axPhase (a : Axis) : ℕ :=
  if a.overshot_dist ≠ 0 ∨ a.overshooting ≠ 0 then 1
  else if a.vel = 0 then 0 else 2

/-- Upper bound for `bounceMeasure` over states with a bounded
overshoot distance. -/
def axBmax (bs : ℕ) (om : ℤ) : ℕ := om.toNat + bs + 3

/-- Per-axis invariant maintained by the released tick machinery:
position in range, bounded overshoot, no pending target, a live
velocity and counter while the overshoot distance is nonzero, and no
overshoot bookkeeping at all on an axis without scrollable range. -/
def axInv (om : ℤ) (a : Axis) : Prop :=
  a.adj.lower ≤ a.adj.value ∧ a.adj.value ≤ a.adj.upper - a.adj.pageSize ∧
  |a.overshot_dist| ≤ om ∧ a.scroll_to = -1 ∧
  (a.overshot_dist ≠ 0 → a.vel ≠ 0) ∧
  (a.overshot_dist ≠ 0 → a.overshooting ≠ 0) ∧
  (¬(a.adj.upper - a.adj.lower > a.adj.pageSize) →
    a.overshot_dist = 0 ∧ a.overshooting = 0)

/-- Configuration sanity for the decay claim: enabled, a non-push mode,
content present, plain friction, a genuine deceleration factor,
nonnegative overshoot maxima and a positive overshooting velocity
cap. -/
def cfgOK (cfg : Cfg) : Prop :=
  cfg.enabled = true ∧ cfg.mode ≠ Mode.push ∧ cfg.hasChild = true ∧
  cfg.low_friction_mode = false ∧ 0 < cfg.decel ∧ cfg.decel < 1 ∧
  0 ≤ cfg.hovershoot_max ∧ 0 ≤ cfg.vovershoot_max ∧
  0 < cfg.vmax_overshooting

/-- Joint invariant: button up and both axes well formed. -/
def jInv (cfg : Cfg) (st : PState) : Prop :=
  st.button_pressed = false ∧ axInv cfg.hovershoot_max st.ax ∧
  axInv cfg.vovershoot_max st.ay

/-- A state on which the timeout stops the timer (returns `FALSE`),
emits "panning finished" and leaves both velocities at zero. -/
def Terminal (cfg : Cfg) (st : PState) : Prop :=
  (hildon_pannable_area_timeout cfg st).ret = false ∧
  (hildon_pannable_area_timeout cfg st).finished = true ∧
  (hildon_pannable_area_timeout cfg st).st.ax.vel = 0 ∧
  (hildon_pannable_area_timeout cfg st).st.ay.vel = 0

/-- The per-axis transformation applied by `hildon_pannable_area_scroll`
on a released tick: a `hildon_pannable_axis_scroll` call when the axis
has scrollable range, otherwise the velocity is zeroed and the target
cleared. -/
def scrollAxis (bs : ℕ) (vo : ℚ) (om : ℤ) (a : Axis) : Axis :=
  if a.adj.upper - a.adj.lower > a.adj.pageSize then axstep bs vo om a
  else { a with vel := 0, scroll_to := -1 }

/-- Strict bound for the sum of the two bounce measures. -/
def bounceBound (cfg : Cfg) : ℕ :=
  axBmax cfg.bounce_steps cfg.hovershoot_max +
    axBmax cfg.bounce_steps cfg.vovershoot_max + 1

/-- Joint termination measure of a tick state: the phases dominate, the
bounce measures break ties. -/
def m2C (cfg : Cfg) (st : PState) : ℕ :=
  (axPhase st.ax + axPhase st.ay) * bounceBound cfg +
    bounceMeasure cfg.bounce_steps cfg.hovershoot_max st.ax +
    bounceMeasure cfg.bounce_steps cfg.vovershoot_max st.ay

theorem axPhase_one (a : Axis)
    (h : a.overshot_dist ≠ 0 ∨ a.overshooting ≠ 0) : axPhase a = 1 := by
  unfold axPhase
  rw [if_pos h]

theorem axPhase_zero (a : Axis) (h1 : a.overshot_dist = 0)
    (h2 : a.overshooting = 0) (h3 : a.vel = 0) : axPhase a = 0 := by
  unfold axPhase
  rw [if_neg (by simp [h1, h2]), if_pos h3]

theorem axPhase_two (a : Axis) (h1 : a.overshot_dist = 0)
    (h2 : a.overshooting = 0) (h3 : a.vel ≠ 0) : axPhase a = 2 := by
  unfold axPhase
  rw [if_neg (by simp [h1, h2]), if_neg h3]

theorem bounceMeasure_zero (bs : ℕ) (om : ℤ) (a : Axis)
    (h1 : a.overshot_dist = 0) (h2 : a.overshooting = 0) :
    bounceMeasure bs om a = 0 := by
  unfold bounceMeasure
  rw [if_neg (by omega), if_neg (by omega), if_neg (by simp [h2])]

theorem bounceMeasure_le (bs : ℕ) (om : ℤ) (a : Axis)
    (h : |a.overshot_dist| ≤ om) : bounceMeasure bs om a ≤ axBmax bs om := by
  have h1 := abs_le.mp h
  have h4 : bs - min a.overshooting bs ≤ bs := Nat.sub_le _ _
  unfold bounceMeasure axBmax
  split_ifs <;> omega

/-- The bounce branch leaves the adjustment and the scroll-to target
untouched. -/
theorem bounce_frame (bs : ℕ) (om : ℤ) (a : Axis) :
    (axis_scroll_bounce bs om a).adj = a.adj ∧
    (axis_scroll_bounce bs om a).scroll_to = a.scroll_to := by
  unfold axis_scroll_bounce
  dsimp only
  split_ifs <;> exact ⟨rfl, rfl⟩

/-- A released tick with no overshoot bookkeeping active and
`position - velocity` inside the valid range just moves the
position. -/
theorem axstep_move (bs : ℕ) (vo : ℚ) (om : ℤ) (a : Axis)
    (ho : a.overshooting = 0) (ht : a.scroll_to = -1)
    (hlo : ¬(a.adj.value - a.vel < a.adj.lower))
    (hhi : ¬(a.adj.value - a.vel > a.adj.upper - a.adj.pageSize)) :
    axstep bs vo om a =
      { a with adj := { a.adj with value := a.adj.value - a.vel } } := by
  unfold axstep hildon_pannable_axis_scroll
  rw [if_pos ho]
  unfold axis_scroll_no_overshoot
  dsimp only
  rw [if_neg hlo, if_neg hhi, if_neg (fun hc => hc.1 ht)]
  dsimp only
  rw [gtk_adjustment_set_value_eq (le_of_not_lt hlo) (le_of_not_lt hhi)]

/-- Crossing the lower bound with a nonzero overshoot maximum enters
the overshoot. -/
theorem axstep_cross_low (bs : ℕ) (vo : ℚ) (om : ℤ) (a : Axis)
    (ho : a.overshooting = 0)
    (hlo : a.adj.value - a.vel < a.adj.lower) (hom : om ≠ 0) :
    axstep bs vo om a = { a with
      adj := gtk_adjustment_set_value a.adj a.adj.lower,
      overshooting := 1,
      scroll_to := -1,
      overshot_dist := truncInt (gclamp ((a.overshot_dist : ℚ) + a.vel)
        0 (om : ℚ)),
      vel := min vo a.vel } := by
  unfold axstep hildon_pannable_axis_scroll
  rw [if_pos ho]
  unfold axis_scroll_no_overshoot
  dsimp only
  rw [if_pos hlo, if_pos hom]

/-- Crossing the lower bound with overshoot disabled: hard stop. -/
theorem axstep_cross_low_hard (bs : ℕ) (vo : ℚ) (om : ℤ) (a : Axis)
    (ho : a.overshooting = 0)
    (hlo : a.adj.value - a.vel < a.adj.lower) (hom : om = 0) :
    axstep bs vo om a = { a with
      adj := gtk_adjustment_set_value a.adj a.adj.lower,
      vel := 0, scroll_to := -1 } := by
  unfold axstep hildon_pannable_axis_scroll
  rw [if_pos ho]
  unfold axis_scroll_no_overshoot
  dsimp only
  rw [if_pos hlo, if_neg (by simp [hom])]

/-- Crossing the upper bound with a nonzero overshoot maximum enters
the overshoot. -/
theorem axstep_cross_high (bs : ℕ) (vo : ℚ) (om : ℤ) (a : Axis)
    (ho : a.overshooting = 0)
    (hlo : ¬(a.adj.value - a.vel < a.adj.lower))
    (hhi : a.adj.value - a.vel > a.adj.upper - a.adj.pageSize)
    (hom : om ≠ 0) :
    axstep bs vo om a = { a with
      adj := gtk_adjustment_set_value a.adj (a.adj.upper - a.adj.pageSize),
      overshooting := 1,
      scroll_to := -1,
      overshot_dist := truncInt (gclamp ((a.overshot_dist : ℚ) + a.vel)
        (-(om : ℚ)) 0),
      vel := max (-vo) a.vel } := by
  unfold axstep hildon_pannable_axis_scroll
  rw [if_pos ho]
  unfold axis_scroll_no_overshoot
  dsimp only
  rw [if_neg hlo, if_pos hhi, if_pos hom]

/-- Crossing the upper bound with overshoot disabled: hard stop. -/
theorem axstep_cross_high_hard (bs : ℕ) (vo : ℚ) (om : ℤ) (a : Axis)
    (ho : a.overshooting = 0)
    (hlo : ¬(a.adj.value - a.vel < a.adj.lower))
    (hhi : a.adj.value - a.vel > a.adj.upper - a.adj.pageSize)
    (hom : om = 0) :
    axstep bs vo om a = { a with
      adj := gtk_adjustment_set_value a.adj (a.adj.upper - a.adj.pageSize),
      vel := 0, scroll_to := -1 } := by
  unfold axstep hildon_pannable_axis_scroll
  rw [if_pos ho]
  unfold axis_scroll_no_overshoot
  dsimp only
  rw [if_neg hlo, if_pos hhi, if_neg (by simp [hom])]

/-- Scaling the velocity at overshoot distance 0 changes neither the
phase nor the bounce measure, provided the scaled velocity is zero
exactly when the original one is. -/
theorem phaseB_vel_scale (bs : ℕ) (om : ℤ) (a : Axis) (x : ℚ)
    (hod : a.overshot_dist = 0) (hx : x = 0 ↔ a.vel = 0) :
    axPhase { a with vel := x } = axPhase a ∧
    bounceMeasure bs om { a with vel := x } = bounceMeasure bs om a := by
  constructor
  · by_cases ho : a.overshooting = 0
    · by_cases hv : a.vel = 0
      · rw [axPhase_zero ({ a with vel := x }) hod ho (hx.mpr hv),
          axPhase_zero a hod ho hv]
      · rw [axPhase_two ({ a with vel := x }) hod ho
          (fun h => hv (hx.mp h)), axPhase_two a hod ho hv]
    · rw [axPhase_one ({ a with vel := x }) (Or.inr ho),
        axPhase_one a (Or.inr ho)]
  · unfold bounceMeasure
    dsimp only
    rw [hod]
    norm_num

/-- Overwriting the velocity preserves the axis invariant when the
overshoot distance is zero. -/
theorem axInv_vel (om : ℤ) (a : Axis) (x : ℚ) (h : axInv om a)
    (hod : a.overshot_dist = 0) : axInv om { a with vel := x } := by
  obtain ⟨h1, h2, h3, h4, _, _, h7⟩ := h
  exact ⟨h1, h2, h3, h4, fun hc => absurd hod hc, fun hc => absurd hod hc,
    fun hv => ⟨hod, (h7 hv).2⟩⟩

/-- Lexicographic decrease of the flattened measure: the phase sum
cannot grow, ties keep the bounce sum from growing, the new bounce sum
is below the weight, and one component strictly drops. -/
theorem m2_lt_arith (K px py px' py' Bx By Bx' By' : ℕ)
    (hpx : px' ≤ px) (hpy : py' ≤ py)
    (hBx : px' = px → Bx' ≤ Bx) (hBy : py' = py → By' ≤ By)
    (hKB : Bx' + By' < K)
    (hstrict : px' < px ∨ py' < py ∨ Bx' < Bx ∨ By' < By) :
    (px' + py') * K + Bx' + By' < (px + py) * K + Bx + By := by
  by_cases hps : px' + py' < px + py
  · calc (px' + py') * K + Bx' + By'
        < (px' + py') * K + K := by omega
      _ = (px' + py' + 1) * K := by ring
      _ ≤ (px + py) * K := Nat.mul_le_mul_right K (by omega)
      _ ≤ (px + py) * K + Bx + By := by omega
  · have hx : px' = px := by omega
    have hy : py' = py := by omega
    have h1 := hBx hx
    have h2 := hBy hy
    rw [hx, hy]
    omega

/-- For a deceleration factor strictly below one, some power brings any
pair of magnitudes below one. -/
theorem decay_exists (d x y : ℚ) (h0 : 0 < d) (h1 : d < 1) :
    ∃ n : ℕ, |x| * d ^ n < 1 ∧ |y| * d ^ n < 1 := by
  have hM : (0 : ℚ) ≤ max |x| |y| :=
    le_trans (abs_nonneg x) (le_max_left _ _)
  have hM1 : (0 : ℚ) < max |x| |y| + 1 := by linarith
  obtain ⟨n, hn⟩ := exists_pow_lt_of_lt_one
    (show (0 : ℚ) < 1 / (max |x| |y| + 1) by positivity) h1
  have hd : (0 : ℚ) ≤ d ^ n := pow_nonneg h0.le n
  have key : ∀ z : ℚ, |z| ≤ max |x| |y| → |z| * d ^ n < 1 := by
    intro z hz
    have h2 : |z| * d ^ n ≤ (max |x| |y| + 1) * d ^ n :=
      mul_le_mul_of_nonneg_right (by linarith) hd
    have h3 : (max |x| |y| + 1) * d ^ n
        < (max |x| |y| + 1) * (1 / (max |x| |y| + 1)) :=
      mul_lt_mul_of_pos_left hn hM1
    have h4 : (max |x| |y| + 1) * (1 / (max |x| |y| + 1)) = 1 :=
      mul_one_div_cancel (ne_of_gt hM1)
    linarith
  exact ⟨n, key x (le_max_left _ _), key y (le_max_right _ _)⟩

/-- The horizontal component of a released scroll call is `scrollAxis`
of the old axis. -/
theorem scroll_ax_eq (cfg : Cfg) (st : PState)
    (hchild : cfg.hasChild = true) (hbp : st.button_pressed = false) :
    (hildon_pannable_area_scroll cfg st st.ax.vel st.ay.vel).ax =
      scrollAxis cfg.bounce_steps cfg.vmax_overshooting cfg.hovershoot_max
        st.ax := by
  unfold hildon_pannable_area_scroll scrollAxis axstep
  rw [if_neg (by simp [hchild]), hbp]
  dsimp only
  split_ifs <;> rfl

/-- The vertical component of a released scroll call is `scrollAxis` of
the old axis. -/
theorem scroll_ay_eq (cfg : Cfg) (st : PState)
    (hchild : cfg.hasChild = true) (hbp : st.button_pressed = false) :
    (hildon_pannable_area_scroll cfg st st.ax.vel st.ay.vel).ay =
      scrollAxis cfg.bounce_steps cfg.vmax_overshooting cfg.vovershoot_max
        st.ay := by
  unfold hildon_pannable_area_scroll scrollAxis axstep
  rw [if_neg (by simp [hchild]), hbp]
  dsimp only
  split_ifs <;> rfl

/-- Packaging of a tick outcome that strictly lowers the phase. -/
theorem classify_drop (bs : ℕ) (om : ℤ) (a b : Axis)
    (hInvb : axInv om b) (hp : axPhase b < axPhase a) :
    axInv om b ∧ axPhase b ≤ axPhase a ∧
    (axPhase b = axPhase a → bounceMeasure bs om b ≤ bounceMeasure bs om a) ∧
    (b.overshot_dist ≠ 0 → axPhase b < axPhase a ∨
      bounceMeasure bs om b < bounceMeasure bs om a) ∧
    ((b.overshot_dist = 0 ∧ b.overshooting = 0 ∧ b.vel = a.vel ∧
      a.overshot_dist = 0 ∧ a.overshooting = 0 ∧ axPhase b = axPhase a) ∨
     axPhase b < axPhase a ∨
     bounceMeasure bs om b < bounceMeasure bs om a) :=
  ⟨hInvb, le_of_lt hp, fun h => absurd h (ne_of_lt hp), fun _ => Or.inl hp,
   Or.inr (Or.inl hp)⟩

/-- Packaging of a tick outcome that keeps the overshoot bookkeeping
empty and the velocity unchanged. -/
theorem classify_pure (bs : ℕ) (om : ℤ) (a b : Axis)
    (hInvb : axInv om b) (hodb : b.overshot_dist = 0)
    (hoz : b.overshooting = 0) (hvel : b.vel = a.vel)
    (hoda : a.overshot_dist = 0) (hoa : a.overshooting = 0) :
    axInv om b ∧ axPhase b ≤ axPhase a ∧
    (axPhase b = axPhase a → bounceMeasure bs om b ≤ bounceMeasure bs om a) ∧
    (b.overshot_dist ≠ 0 → axPhase b < axPhase a ∨
      bounceMeasure bs om b < bounceMeasure bs om a) ∧
    ((b.overshot_dist = 0 ∧ b.overshooting = 0 ∧ b.vel = a.vel ∧
      a.overshot_dist = 0 ∧ a.overshooting = 0 ∧ axPhase b = axPhase a) ∨
     axPhase b < axPhase a ∨
     bounceMeasure bs om b < bounceMeasure bs om a) := by
  have hp : axPhase b = axPhase a := by
    by_cases hv : a.vel = 0
    · rw [axPhase_zero b hodb hoz (hvel.trans hv), axPhase_zero a hoda hoa hv]
    · rw [axPhase_two b hodb hoz (fun h => hv (hvel.symm.trans h)),
        axPhase_two a hoda hoa hv]
  exact ⟨hInvb, le_of_eq hp,
    fun _ => le_of_eq ((bounceMeasure_zero bs om b hodb hoz).trans
      (bounceMeasure_zero bs om a hoda hoa).symm),
    fun hc => absurd hodb hc,
    Or.inl ⟨hodb, hoz, hvel, hoda, hoa, hp⟩⟩

/-- Packaging of a bounce tick: phase 1 on both sides and a strictly
smaller bounce measure. -/
theorem classify_bounce (bs : ℕ) (om : ℤ) (a b : Axis)
    (hInvb : axInv om b) (hpa : axPhase a = 1) (hpb : axPhase b = 1)
    (hBlt : bounceMeasure bs om b < bounceMeasure bs om a) :
    axInv om b ∧ axPhase b ≤ axPhase a ∧
    (axPhase b = axPhase a → bounceMeasure bs om b ≤ bounceMeasure bs om a) ∧
    (b.overshot_dist ≠ 0 → axPhase b < axPhase a ∨
      bounceMeasure bs om b < bounceMeasure bs om a) ∧
    ((b.overshot_dist = 0 ∧ b.overshooting = 0 ∧ b.vel = a.vel ∧
      a.overshot_dist = 0 ∧ a.overshooting = 0 ∧ axPhase b = axPhase a) ∨
     axPhase b < axPhase a ∨
     bounceMeasure bs om b < bounceMeasure bs om a) :=
  ⟨hInvb, le_of_eq (hpb.trans hpa.symm), fun _ => le_of_lt hBlt,
   fun _ => Or.inr hBlt, Or.inr (Or.inr hBlt)⟩

/-- Classification of one released per-axis tick under the axis
invariant: the invariant is preserved, the phase never grows, a phase
tie keeps the bounce measure from growing, an outcome still inside the
overshoot strictly lowers phase or measure, and every outcome is a
plain in-range move, a phase drop, or a bounce-measure drop. -/
theorem scrollAxis_classify (bs : ℕ) (vo : ℚ) (om : ℤ) (a : Axis)
    (hvo : 0 < vo) (hom : 0 ≤ om) (hInv : axInv om a) :
    axInv om (scrollAxis bs vo om a) ∧
    axPhase (scrollAxis bs vo om a) ≤ axPhase a ∧
    (axPhase (scrollAxis bs vo om a) = axPhase a →
      bounceMeasure bs om (scrollAxis bs vo om a) ≤ bounceMeasure bs om a) ∧
    ((scrollAxis bs vo om a).overshot_dist ≠ 0 →
      axPhase (scrollAxis bs vo om a) < axPhase a ∨
      bounceMeasure bs om (scrollAxis bs vo om a) < bounceMeasure bs om a) ∧
    (((scrollAxis bs vo om a).overshot_dist = 0 ∧
      (scrollAxis bs vo om a).overshooting = 0 ∧
      (scrollAxis bs vo om a).vel = a.vel ∧
      a.overshot_dist = 0 ∧ a.overshooting = 0 ∧
      axPhase (scrollAxis bs vo om a) = axPhase a) ∨
     axPhase (scrollAxis bs vo om a) < axPhase a ∨
     bounceMeasure bs om (scrollAxis bs vo om a) < bounceMeasure bs om a) := by
  obtain ⟨hv1, hv2, hob, hst, hvod, hood, hviz⟩ := hInv
  by_cases hvis : a.adj.upper - a.adj.lower > a.adj.pageSize
  · have hsa : scrollAxis bs vo om a = axstep bs vo om a := by
      unfold scrollAxis
      rw [if_pos hvis]
    rw [hsa]
    by_cases ho : a.overshooting = 0
    · by_cases hodz : a.overshot_dist = 0
      · by_cases hlo : a.adj.value - a.vel < a.adj.lower
        · -- crossing the lower bound
          have hvpos : 0 < a.vel := by linarith
          by_cases homz : om = 0
          · -- hard stop
            have hstep := axstep_cross_low_hard bs vo om a ho hlo homz
            have hInvb : axInv om (axstep bs vo om a) := by
              rw [hstep,
                gtk_adjustment_set_value_eq le_rfl (le_trans hv1 hv2)]
              exact ⟨le_rfl, le_trans hv1 hv2, hob, rfl,
                fun hc => absurd hodz hc, fun hc => absurd hodz hc,
                fun h => absurd hvis h⟩
            have hpb : axPhase (axstep bs vo om a) = 0 := by
              rw [hstep]
              apply axPhase_zero
              · exact hodz
              · exact ho
              · rfl
            have hpa : axPhase a = 2 := axPhase_two a hodz ho (ne_of_gt hvpos)
            exact classify_drop bs om a _ hInvb (by rw [hpb, hpa]; omega)
          · -- overshoot entry
            have hstep := axstep_cross_low bs vo om a ho hlo homz
            have hInvb : axInv om (axstep bs vo om a) := by
              rw [hstep,
                gtk_adjustment_set_value_eq le_rfl (le_trans hv1 hv2)]
              exact ⟨le_rfl, le_trans hv1 hv2,
                abs_truncInt_gclamp_upper ((a.overshot_dist : ℚ) + a.vel)
                  om hom, rfl,
                fun _ => ne_of_gt (lt_min hvo hvpos),
                fun _ => Nat.one_ne_zero,
                fun h => absurd hvis h⟩
            have hpb : axPhase (axstep bs vo om a) = 1 := by
              rw [hstep]
              apply axPhase_one
              exact Or.inr Nat.one_ne_zero
            have hpa : axPhase a = 2 := axPhase_two a hodz ho (ne_of_gt hvpos)
            exact classify_drop bs om a _ hInvb (by rw [hpb, hpa]; omega)
        · by_cases hhi : a.adj.value - a.vel > a.adj.upper - a.adj.pageSize
          · -- crossing the upper bound
            have hvneg : a.vel < 0 := by linarith
            by_cases homz : om = 0
            · have hstep := axstep_cross_high_hard bs vo om a ho hlo hhi homz
              have hInvb : axInv om (axstep bs vo om a) := by
                rw [hstep,
                  gtk_adjustment_set_value_eq (le_trans hv1 hv2) le_rfl]
                exact ⟨le_trans hv1 hv2, le_rfl, hob, rfl,
                  fun hc => absurd hodz hc, fun hc => absurd hodz hc,
                  fun h => absurd hvis h⟩
              have hpb : axPhase (axstep bs vo om a) = 0 := by
                rw [hstep]
                apply axPhase_zero
                · exact hodz
                · exact ho
                · rfl
              have hpa : axPhase a = 2 :=
                axPhase_two a hodz ho (ne_of_lt hvneg)
              exact classify_drop bs om a _ hInvb (by rw [hpb, hpa]; omega)
            · have hstep := axstep_cross_high bs vo om a ho hlo hhi homz
              have hInvb : axInv om (axstep bs vo om a) := by
                rw [hstep,
                  gtk_adjustment_set_value_eq (le_trans hv1 hv2) le_rfl]
                exact ⟨le_trans hv1 hv2, le_rfl,
                  abs_truncInt_gclamp_lower ((a.overshot_dist : ℚ) + a.vel)
                    om hom, rfl,
                  fun _ => ne_of_lt (max_lt (neg_lt_zero.mpr hvo) hvneg),
                  fun _ => Nat.one_ne_zero,
                  fun h => absurd hvis h⟩
              have hpb : axPhase (axstep bs vo om a) = 1 := by
                rw [hstep]
                apply axPhase_one
                exact Or.inr Nat.one_ne_zero
              have hpa : axPhase a = 2 :=
                axPhase_two a hodz ho (ne_of_lt hvneg)
              exact classify_drop bs om a _ hInvb (by rw [hpb, hpa]; omega)
          · -- plain in-range move
            have hstep := axstep_move bs vo om a ho hst hlo hhi
            have hInvb : axInv om (axstep bs vo om a) := by
              rw [hstep]
              exact ⟨le_of_not_lt hlo, le_of_not_lt hhi, hob, hst,
                fun hc => absurd hodz hc, fun hc => absurd hodz hc,
                fun h => absurd hvis h⟩
            have hodb : (axstep bs vo om a).overshot_dist = 0 := by
              rw [hstep]
              exact hodz
            have hozb : (axstep bs vo om a).overshooting = 0 := by
              rw [hstep]
              exact ho
            have hvelb : (axstep bs vo om a).vel = a.vel := by
              rw [hstep]
            exact classify_pure bs om a _ hInvb hodb hozb hvelb hodz ho
      · exact absurd ho (hood hodz)
    · -- the bounce branch
      rw [axstep_bounce bs vo om a ho]
      by_cases hodz : a.overshot_dist = 0
      · -- settle
        have hstep := bounce_settle bs om a hodz
        have hInvb : axInv om (axis_scroll_bounce bs om a) := by
          rw [hstep]
          exact ⟨hv1, hv2, hob, hst, fun hc => absurd hodz hc,
            fun hc => absurd hodz hc, fun _ => ⟨hodz, rfl⟩⟩
        have hpb : axPhase (axis_scroll_bounce bs om a) = 0 := by
          rw [hstep]
          apply axPhase_zero
          · exact hodz
          · rfl
          · rfl
        have hpa : axPhase a = 1 := axPhase_one a (Or.inr ho)
        exact classify_drop bs om a _ hInvb (by rw [hpb, hpa]; omega)
      · -- genuine bounce step
        have hfr := bounce_frame bs om a
        have hstep :
            ((axis_scroll_bounce bs om a).overshot_dist ≠ 0 →
              (axis_scroll_bounce bs om a).vel ≠ 0) ∧
            (axis_scroll_bounce bs om a).overshooting ≠ 0 ∧
            bounceMeasure bs om (axis_scroll_bounce bs om a) <
              bounceMeasure bs om a := by
          rcases lt_or_gt_of_ne hodz with hneg | hpos
          · exact bounce_step_neg bs om a hob (hvod hodz) ho hneg
          · exact bounce_step_pos bs om a hob (hvod hodz) ho hpos
        have hInvb : axInv om (axis_scroll_bounce bs om a) := by
          refine ⟨?_, ?_, bounce_od_step bs om a hom hob, ?_, hstep.1,
            fun _ => hstep.2.1, ?_⟩
          · rw [hfr.1]
            exact hv1
          · rw [hfr.1]
            exact hv2
          · rw [hfr.2]
            exact hst
          · intro h
            rw [hfr.1] at h
            exact absurd hvis h
        have hpa : axPhase a = 1 := axPhase_one a (Or.inl hodz)
        have hpb : axPhase (axis_scroll_bounce bs om a) = 1 :=
          axPhase_one _ (Or.inr hstep.2.1)
        exact classify_bounce bs om a _ hInvb hpa hpb hstep.2.2
  · -- axis without scrollable range
    have hsa : scrollAxis bs vo om a =
        { a with vel := 0, scroll_to := -1 } := by
      unfold scrollAxis
      rw [if_neg hvis]
    obtain ⟨hz1, hz2⟩ := hviz hvis
    rw [hsa]
    by_cases hvz : a.vel = 0
    · have hid : ({ a with vel := 0, scroll_to := -1 } : Axis) = a := by
        rw [← hvz, ← hst]
      rw [hid]
      exact classify_pure bs om a a ⟨hv1, hv2, hob, hst, hvod, hood, hviz⟩
        hz1 hz2 rfl hz1 hz2
    · have hInvb : axInv om ({ a with vel := 0, scroll_to := -1 } : Axis) :=
        ⟨hv1, hv2, hob, rfl, fun hc => absurd hz1 hc,
         fun hc => absurd hz1 hc, fun _ => ⟨hz1, hz2⟩⟩
      have hpb : axPhase ({ a with vel := 0, scroll_to := -1 } : Axis) = 0 :=
        axPhase_zero ({ a with vel := 0, scroll_to := -1 } : Axis) hz1 hz2 rfl
      have hpa : axPhase a = 2 := axPhase_two a hz1 hz2 hvz
      exact classify_drop bs om a _ hInvb (by rw [hpb, hpa]; omega)

/-- One released tick under the joint invariant either is terminal,
or preserves the invariant and strictly decreases the joint measure,
or preserves both and is a pure deceleration tick: each velocity is
multiplied by `decel` and the decayed velocities are not yet both below
one. -/
theorem tick_classify (cfg : Cfg) (st : PState) (hc : cfgOK cfg)
    (hI : jInv cfg st) :
    Terminal cfg st ∨
    (jInv cfg (tick cfg st) ∧
      (m2C cfg (tick cfg st) < m2C cfg st ∨
       (m2C cfg (tick cfg st) = m2C cfg st ∧
        (tick cfg st).ax.vel = st.ax.vel * cfg.decel ∧
        (tick cfg st).ay.vel = st.ay.vel * cfg.decel ∧
        ¬(|st.ax.vel * cfg.decel| < 1 ∧
          |st.ay.vel * cfg.decel| < 1)))) := by
  obtain ⟨hen, hmode, hchild, hlf, hd0, hd1, homx, homy, hvo⟩ := hc
  obtain ⟨hbp, hIx, hIy⟩ := hI
  have hnp : ¬(¬cfg.enabled ∨ cfg.mode = Mode.push) :=
    fun h => h.elim (fun h1 => h1 hen) hmode
  have hCx := scrollAxis_classify cfg.bounce_steps cfg.vmax_overshooting
    cfg.hovershoot_max st.ax hvo homx hIx
  have hCy := scrollAxis_classify cfg.bounce_steps cfg.vmax_overshooting
    cfg.vovershoot_max st.ay hvo homy hIy
  have hKB : bounceMeasure cfg.bounce_steps cfg.hovershoot_max
      (scrollAxis cfg.bounce_steps cfg.vmax_overshooting cfg.hovershoot_max
        st.ax) +
      bounceMeasure cfg.bounce_steps cfg.vovershoot_max
      (scrollAxis cfg.bounce_steps cfg.vmax_overshooting cfg.vovershoot_max
        st.ay) < bounceBound cfg := by
    have b1 := bounceMeasure_le cfg.bounce_steps cfg.hovershoot_max _
      hCx.1.2.2.1
    have b2 := bounceMeasure_le cfg.bounce_steps cfg.vovershoot_max _
      hCy.1.2.2.1
    unfold bounceBound
    omega
  set S := hildon_pannable_area_scroll cfg st st.ax.vel st.ay.vel with hS
  have hax : S.ax = scrollAxis cfg.bounce_steps cfg.vmax_overshooting
      cfg.hovershoot_max st.ax := by
    rw [hS]
    exact scroll_ax_eq cfg st hchild hbp
  have hay : S.ay = scrollAxis cfg.bounce_steps cfg.vmax_overshooting
      cfg.vovershoot_max st.ay := by
    rw [hS]
    exact scroll_ay_eq cfg st hchild hbp
  have hbp1 : S.button_pressed = false := by
    rw [hS, scroll_button_pressed, hbp]
  by_cases hgate : S.ay.overshot_dist = 0 ∧ S.ax.overshot_dist = 0
  · -- no overshoot after the scroll phase: the deceleration branch
    have htx1 : S.ax.scroll_to = -1 := by
      rw [hax]
      exact hCx.1.2.2.2.1
    have hty1 : S.ay.scroll_to = -1 := by
      rw [hay]
      exact hCy.1.2.2.2.1
    have hts : ¬(S.ax.scroll_to ≠ -1 ∨ S.ay.scroll_to ≠ -1) :=
      fun h => h.elim (fun h1 => h1 htx1) (fun h2 => h2 hty1)
    have hlfc1 : ¬cfg.low_friction_mode ∨
        (cfg.mov_mode_horiz ∧ |S.ax.vel| < (4/5) * cfg.vmax) :=
      Or.inl (by simp [hlf])
    have hlfc2 : ¬cfg.low_friction_mode ∨
        (cfg.mov_mode_vert ∧ |S.ay.vel| < (4/5) * cfg.vmax) :=
      Or.inl (by simp [hlf])
    by_cases hterm : |S.ax.vel * cfg.decel| < 1 ∧ |S.ay.vel * cfg.decel| < 1
    · -- both decayed velocities below one: the tick is terminal
      have heq : hildon_pannable_area_timeout cfg st =
          ⟨{ S with
              ax.vel := 0,
              ay.vel := 0,
              idle_id := false }, false, true⟩ := by
        unfold hildon_pannable_area_timeout
        rw [if_neg hnp]
        dsimp only
        rw [← hS, hbp1, if_pos (show ¬(false = true) by decide),
          if_pos hgate, if_neg hts, if_pos hlfc1, if_pos hlfc2,
          if_pos hterm]
      exact Or.inl ⟨by rw [heq], by rw [heq], by rw [heq], by rw [heq]⟩
    · -- still fast: every velocity is multiplied by decel
      have heq : hildon_pannable_area_timeout cfg st =
          ⟨{ S with
              ax.vel := S.ax.vel * cfg.decel,
              ay.vel := S.ay.vel * cfg.decel }, true, false⟩ := by
        unfold hildon_pannable_area_timeout
        rw [if_neg hnp]
        dsimp only
        rw [← hS, hbp1, if_pos (show ¬(false = true) by decide),
          if_pos hgate, if_neg hts, if_pos hlfc1, if_pos hlfc2,
          if_neg hterm]
      have htick : tick cfg st =
          { S with
            ax.vel := S.ax.vel * cfg.decel,
            ay.vel := S.ay.vel * cfg.decel } := by
        unfold tick
        rw [heq]
      have hxiff : S.ax.vel * cfg.decel = 0 ↔ S.ax.vel = 0 :=
    ⟨fun h => (mul_eq_zero.mp h).resolve_right (ne_of_gt hd0),
     fun h => by rw [h, zero_mul]⟩
      have hyiff : S.ay.vel * cfg.decel = 0 ↔ S.ay.vel = 0 :=
    ⟨fun h => (mul_eq_zero.mp h).resolve_right (ne_of_gt hd0),
     fun h => by rw [h, zero_mul]⟩
      have hsc1 := phaseB_vel_scale cfg.bounce_steps cfg.hovershoot_max
        S.ax (S.ax.vel * cfg.decel) hgate.2 hxiff
      have hsc2 := phaseB_vel_scale cfg.bounce_steps cfg.vovershoot_max
        S.ay (S.ay.vel * cfg.decel) hgate.1 hyiff
      have hm2eq : m2C cfg (tick cfg st) = m2C cfg S := by
        rw [htick]
        unfold m2C
        dsimp only
        rw [hsc1.1, hsc1.2, hsc2.1, hsc2.2]
      have hInvt : jInv cfg (tick cfg st) := by
        rw [htick]
        refine ⟨hbp1, ?_, ?_⟩
        · apply axInv_vel
          · rw [hax]
            exact hCx.1
          · exact hgate.2
        · apply axInv_vel
          · rw [hay]
            exact hCy.1
          · exact hgate.1
      have hkey : (m2C cfg S = m2C cfg st ∧ S.ax.vel = st.ax.vel ∧
          S.ay.vel = st.ay.vel) ∨ m2C cfg S < m2C cfg st := by
        rcases hCx.2.2.2.2 with hpx | hdx
        · rcases hCy.2.2.2.2 with hpy | hdy
          · left
            refine ⟨?_, ?_, ?_⟩
            · unfold m2C
              rw [hax, hay, hpx.2.2.2.2.2, hpy.2.2.2.2.2,
                bounceMeasure_zero _ _ _ hpx.1 hpx.2.1,
                bounceMeasure_zero _ _ _ hpy.1 hpy.2.1,
                bounceMeasure_zero _ _ _ hpx.2.2.2.1 hpx.2.2.2.2.1,
                bounceMeasure_zero _ _ _ hpy.2.2.2.1 hpy.2.2.2.2.1]
            · rw [hax]
              exact hpx.2.2.1
            · rw [hay]
              exact hpy.2.2.1
          · right
            unfold m2C
            rw [hax, hay]
            apply m2_lt_arith
            · exact hCx.2.1
            · exact hCy.2.1
            · exact hCx.2.2.1
            · exact hCy.2.2.1
            · exact hKB
            · rcases hdy with h | h
              · exact Or.inr (Or.inl h)
              · exact Or.inr (Or.inr (Or.inr h))
        · right
          unfold m2C
          rw [hax, hay]
          apply m2_lt_arith
          · exact hCx.2.1
          · exact hCy.2.1
          · exact hCx.2.2.1
          · exact hCy.2.2.1
          · exact hKB
          · rcases hdx with h | h
            · exact Or.inl h
            · exact Or.inr (Or.inr (Or.inl h))
      rcases hkey with ⟨he, hvx, hvy⟩ | hlt
      · refine Or.inr ⟨hInvt, Or.inr ⟨hm2eq.trans he, ?_, ?_, ?_⟩⟩
        · rw [htick]
          dsimp only
          rw [hvx]
        · rw [htick]
          dsimp only
          rw [hvy]
        · rw [hvx, hvy] at hterm
          exact hterm
      · exact Or.inr ⟨hInvt, Or.inl (lt_of_le_of_lt (le_of_eq hm2eq) hlt)⟩
  · -- some axis still overshooting: the tick just returns TRUE
    have heq : hildon_pannable_area_timeout cfg st = ⟨S, true, false⟩ := by
      unfold hildon_pannable_area_timeout
      rw [if_neg hnp]
      dsimp only
      rw [← hS, hbp1, if_pos (show ¬(false = true) by decide),
        if_neg hgate]
    have htick : tick cfg st = S := by
      unfold tick
      rw [heq]
    refine Or.inr ⟨?_, Or.inl ?_⟩
    · rw [htick]
      refine ⟨hbp1, ?_, ?_⟩
      · rw [hax]
        exact hCx.1
      · rw [hay]
        exact hCy.1
    · rw [htick]
      unfold m2C
      rw [hax, hay]
      apply m2_lt_arith
      · exact hCx.2.1
      · exact hCy.2.1
      · exact hCx.2.2.1
      · exact hCy.2.2.1
      · exact hKB
      · rcases not_and_or.mp hgate with hy | hx
        · rw [hay] at hy
          rcases hCy.2.2.2.1 hy with h | h
          · exact Or.inr (Or.inl h)
          · exact Or.inr (Or.inr (Or.inr h))
        · rw [hax] at hx
          rcases hCx.2.2.2.1 hx with h | h
          · exact Or.inl h
          · exact Or.inr (Or.inr (Or.inl h))

/-- Iterating released ticks from any invariant state reaches a
terminal tick: fuel induction on the joint measure with an inner
induction on a decay horizon covering the pure deceleration ticks. -/
theorem timeout_terminates_aux (cfg : Cfg) (hc : cfgOK cfg) :
    ∀ (m n : ℕ) (st : PState), m2C cfg st ≤ m →
      |st.ax.vel| * cfg.decel ^ n < 1 → |st.ay.vel| * cfg.decel ^ n < 1 →
      jInv cfg st → ∃ k, Terminal cfg ((tick cfg)^[k] st) := by
  have hd0 : 0 < cfg.decel := hc.2.2.2.2.1
  have hd1 : cfg.decel < 1 := hc.2.2.2.2.2.1
  intro m
  induction m with
  | zero =>
      intro n
      induction n with
      | zero =>
          intro st hm h1 h2 hI
          rcases tick_classify cfg st hc hI with hT | ⟨hI', hrest⟩
          · exact ⟨0, hT⟩
          rcases hrest with hlt | ⟨heq2, hvx, hvy, hnterm⟩
          · exact absurd hlt (by omega)
          · exfalso
            rw [pow_zero, mul_one] at h1 h2
            refine hnterm ⟨?_, ?_⟩
            · rw [abs_mul, abs_of_pos hd0]
              calc |st.ax.vel| * cfg.decel ≤ |st.ax.vel| * 1 :=
                  mul_le_mul_of_nonneg_left hd1.le (abs_nonneg _)
                _ = |st.ax.vel| := mul_one _
                _ < 1 := h1
            · rw [abs_mul, abs_of_pos hd0]
              calc |st.ay.vel| * cfg.decel ≤ |st.ay.vel| * 1 :=
                  mul_le_mul_of_nonneg_left hd1.le (abs_nonneg _)
                _ = |st.ay.vel| := mul_one _
                _ < 1 := h2
      | succ n ihn =>
          intro st hm h1 h2 hI
          rcases tick_classify cfg st hc hI with hT | ⟨hI', hrest⟩
          · exact ⟨0, hT⟩
          rcases hrest with hlt | ⟨heq2, hvx, hvy, hnterm⟩
          · exact absurd hlt (by omega)
          · have hx' : |(tick cfg st).ax.vel| * cfg.decel ^ n < 1 := by
              rw [hvx, abs_mul, abs_of_pos hd0]
              calc |st.ax.vel| * cfg.decel * cfg.decel ^ n
                  = |st.ax.vel| * cfg.decel ^ (n + 1) := by ring
                _ < 1 := h1
            have hy' : |(tick cfg st).ay.vel| * cfg.decel ^ n < 1 := by
              rw [hvy, abs_mul, abs_of_pos hd0]
              calc |st.ay.vel| * cfg.decel * cfg.decel ^ n
                  = |st.ay.vel| * cfg.decel ^ (n + 1) := by ring
                _ < 1 := h2
            obtain ⟨k, hk⟩ := ihn (tick cfg st)
              (by rw [heq2]; exact hm) hx' hy' hI'
            exact ⟨k + 1, by rw [Function.iterate_succ_apply]; exact hk⟩
  | succ m IHm =>
      intro n
      induction n with
      | zero =>
          intro st hm h1 h2 hI
          rcases tick_classify cfg st hc hI with hT | ⟨hI', hrest⟩
          · exact ⟨0, hT⟩
          rcases hrest with hlt | ⟨heq2, hvx, hvy, hnterm⟩
          · obtain ⟨n', hx', hy'⟩ := decay_exists cfg.decel
              (tick cfg st).ax.vel (tick cfg st).ay.vel hd0 hd1
            obtain ⟨k, hk⟩ := IHm n' (tick cfg st) (by omega) hx' hy' hI'
            exact ⟨k + 1, by rw [Function.iterate_succ_apply]; exact hk⟩
          · exfalso
            rw [pow_zero, mul_one] at h1 h2
            refine hnterm ⟨?_, ?_⟩
            · rw [abs_mul, abs_of_pos hd0]
              calc |st.ax.vel| * cfg.decel ≤ |st.ax.vel| * 1 :=
                  mul_le_mul_of_nonneg_left hd1.le (abs_nonneg _)
                _ = |st.ax.vel| := mul_one _
                _ < 1 := h1
            · rw [abs_mul, abs_of_pos hd0]
              calc |st.ay.vel| * cfg.decel ≤ |st.ay.vel| * 1 :=
                  mul_le_mul_of_nonneg_left hd1.le (abs_nonneg _)
                _ = |st.ay.vel| := mul_one _
                _ < 1 := h2
      | succ n ihn =>
          intro st hm h1 h2 hI
          rcases tick_classify cfg st hc hI with hT | ⟨hI', hrest⟩
          · exact ⟨0, hT⟩
          rcases hrest with hlt | ⟨heq2, hvx, hvy, hnterm⟩
          · obtain ⟨n', hx', hy'⟩ := decay_exists cfg.decel
              (tick cfg st).ax.vel (tick cfg st).ay.vel hd0 hd1
            obtain ⟨k, hk⟩ := IHm n' (tick cfg st) (by omega) hx' hy' hI'
            exact ⟨k + 1, by rw [Function.iterate_succ_apply]; exact hk⟩
          · have hx' : |(tick cfg st).ax.vel| * cfg.decel ^ n < 1 := by
              rw [hvx, abs_mul, abs_of_pos hd0]
              calc |st.ax.vel| * cfg.decel * cfg.decel ^ n
                  = |st.ax.vel| * cfg.decel ^ (n + 1) := by ring
                _ < 1 := h1
            have hy' : |(tick cfg st).ay.vel| * cfg.decel ^ n < 1 := by
              rw [hvy, abs_mul, abs_of_pos hd0]
              calc |st.ay.vel| * cfg.decel * cfg.decel ^ n
                  = |st.ay.vel| * cfg.decel ^ (n + 1) := by ring
                _ < 1 := h2
            obtain ⟨k, hk⟩ := ihn (tick cfg st)
              (by rw [heq2]; exact hm) hx' hy' hI'
            exact ⟨k + 1, by rw [Function.iterate_succ_apply]; exact hk⟩

/-- C3: with `decel` strictly between 0 and 1 in a sane released
configuration (enabled, non-push mode, content present, plain friction,
nonnegative overshoot maxima, positive overshooting cap), starting from
a state with the button up, no overshoot active, no scroll-to target
and both positions in range, (a) finitely many ticks reach a tick that
returns `FALSE`, emits "panning finished" and zeroes both velocities;
and (b) a tick whose scroll phase stays inside the valid range
multiplies each axis velocity exactly by `decel` and returns `TRUE`
while some decayed velocity is still at least 1.0 in absolute value,
and stops the timer, emits "panning finished" and zeroes both
velocities as soon as both decayed velocities are below 1.0. -/
theorem timeout_decelerates_to_rest (cfg : Cfg) (st : PState)
    (hen : cfg.enabled = true) (hmode : cfg.mode ≠ Mode.push)
    (hchild : cfg.hasChild = true) (hlf : cfg.low_friction_mode = false)
    (hd0 : 0 < cfg.decel) (hd1 : cfg.decel < 1)
    (homx : 0 ≤ cfg.hovershoot_max) (homy : 0 ≤ cfg.vovershoot_max)
    (hvo : 0 < cfg.vmax_overshooting)
    (hbp : st.button_pressed = false)
    (hodx : st.ax.overshot_dist = 0) (hody : st.ay.overshot_dist = 0)
    (hox : st.ax.overshooting = 0) (hoy : st.ay.overshooting = 0)
    (htx : st.ax.scroll_to = -1) (hty : st.ay.scroll_to = -1)
    (hrx1 : st.ax.adj.lower ≤ st.ax.adj.value)
    (hrx2 : st.ax.adj.value ≤ st.ax.adj.upper - st.ax.adj.pageSize)
    (hry1 : st.ay.adj.lower ≤ st.ay.adj.value)
    (hry2 : st.ay.adj.value ≤ st.ay.adj.upper - st.ay.adj.pageSize) :
    (∃ k,
      (hildon_pannable_area_timeout cfg ((tick cfg)^[k] st)).ret = false ∧
      (hildon_pannable_area_timeout cfg ((tick cfg)^[k] st)).finished
        = true ∧
      (hildon_pannable_area_timeout cfg ((tick cfg)^[k] st)).st.ax.vel
        = 0 ∧
      (hildon_pannable_area_timeout cfg ((tick cfg)^[k] st)).st.ay.vel
        = 0) ∧
    (st.ax.adj.upper - st.ax.adj.lower > st.ax.adj.pageSize →
     st.ay.adj.upper - st.ay.adj.lower > st.ay.adj.pageSize →
     ¬(st.ax.adj.value - st.ax.vel < st.ax.adj.lower) →
     ¬(st.ax.adj.value - st.ax.vel > st.ax.adj.upper - st.ax.adj.pageSize) →
     ¬(st.ay.adj.value - st.ay.vel < st.ay.adj.lower) →
     ¬(st.ay.adj.value - st.ay.vel > st.ay.adj.upper - st.ay.adj.pageSize) →
     ((¬(|st.ax.vel * cfg.decel| < 1 ∧ |st.ay.vel * cfg.decel| < 1) →
       (hildon_pannable_area_timeout cfg st).ret = true ∧
       (tick cfg st).ax.vel = st.ax.vel * cfg.decel ∧
       (tick cfg st).ay.vel = st.ay.vel * cfg.decel ∧
       (tick cfg st).ax.adj.value = st.ax.adj.value - st.ax.vel ∧
       (tick cfg st).ay.adj.value = st.ay.adj.value - st.ay.vel) ∧
      ((|st.ax.vel * cfg.decel| < 1 ∧ |st.ay.vel * cfg.decel| < 1) →
       (hildon_pannable_area_timeout cfg st).ret = false ∧
       (hildon_pannable_area_timeout cfg st).finished = true ∧
       (tick cfg st).ax.vel = 0 ∧ (tick cfg st).ay.vel = 0 ∧
       (tick cfg st).ax.adj.value = st.ax.adj.value - st.ax.vel ∧
       (tick cfg st).ay.adj.value = st.ay.adj.value - st.ay.vel))) := by
  have hcfg : cfgOK cfg :=
    ⟨hen, hmode, hchild, hlf, hd0, hd1, homx, homy, hvo⟩
  constructor
  · -- (a) termination
    have hI : jInv cfg st :=
      ⟨hbp,
       ⟨hrx1, hrx2, by rw [hodx, abs_zero]; exact homx, htx,
        fun hc => absurd hodx hc, fun hc => absurd hodx hc,
        fun _ => ⟨hodx, hox⟩⟩,
       ⟨hry1, hry2, by rw [hody, abs_zero]; exact homy, hty,
        fun hc => absurd hody hc, fun hc => absurd hody hc,
        fun _ => ⟨hody, hoy⟩⟩⟩
    obtain ⟨n0, hn1, hn2⟩ := decay_exists cfg.decel st.ax.vel st.ay.vel
      hd0 hd1
    obtain ⟨k, hT⟩ := timeout_terminates_aux cfg hcfg (m2C cfg st) n0 st
      le_rfl hn1 hn2 hI
    obtain ⟨t1, t2, t3, t4⟩ := hT
    exact ⟨k, t1, t2, t3, t4⟩
  · -- (b) one in-range tick
    intro hvisx hvisy hlo1 hhi1 hlo2 hhi2
    have hnp : ¬(¬cfg.enabled ∨ cfg.mode = Mode.push) :=
      fun h => h.elim (fun h1 => h1 hen) hmode
    set S := hildon_pannable_area_scroll cfg st st.ax.vel st.ay.vel with hS
    have hsx : S.ax = { st.ax with
        adj := { st.ax.adj with
                 value := st.ax.adj.value - st.ax.vel } } := by
      rw [hS, scroll_ax_eq cfg st hchild hbp]
      unfold scrollAxis
      rw [if_pos hvisx]
      exact axstep_move _ _ _ _ hox htx hlo1 hhi1
    have hsy : S.ay = { st.ay with
        adj := { st.ay.adj with
                 value := st.ay.adj.value - st.ay.vel } } := by
      rw [hS, scroll_ay_eq cfg st hchild hbp]
      unfold scrollAxis
      rw [if_pos hvisy]
      exact axstep_move _ _ _ _ hoy hty hlo2 hhi2
    have hbp1 : S.button_pressed = false := by
      rw [hS, scroll_button_pressed, hbp]
    have hgate : S.ay.overshot_dist = 0 ∧ S.ax.overshot_dist = 0 :=
      ⟨by rw [hsy]; exact hody, by rw [hsx]; exact hodx⟩
    have hts : ¬(S.ax.scroll_to ≠ -1 ∨ S.ay.scroll_to ≠ -1) :=
      fun h => h.elim (fun h1 => h1 (by rw [hsx]; exact htx))
        (fun h2 => h2 (by rw [hsy]; exact hty))
    have hlfc1 : ¬cfg.low_friction_mode ∨
        (cfg.mov_mode_horiz ∧ |S.ax.vel| < (4/5) * cfg.vmax) :=
      Or.inl (by simp [hlf])
    have hlfc2 : ¬cfg.low_friction_mode ∨
        (cfg.mov_mode_vert ∧ |S.ay.vel| < (4/5) * cfg.vmax) :=
      Or.inl (by simp [hlf])
    have hvex : S.ax.vel = st.ax.vel := by
      rw [hsx]
    have hvey : S.ay.vel = st.ay.vel := by
      rw [hsy]
    constructor
    · -- still fast: plain decel tick
      intro hfast
      have hterm : ¬(|S.ax.vel * cfg.decel| < 1 ∧
          |S.ay.vel * cfg.decel| < 1) := by
        rw [hvex, hvey]
        exact hfast
      have heq : hildon_pannable_area_timeout cfg st =
          ⟨{ S with
              ax.vel := S.ax.vel * cfg.decel,
              ay.vel := S.ay.vel * cfg.decel }, true, false⟩ := by
        unfold hildon_pannable_area_timeout
        rw [if_neg hnp]
        dsimp only
        rw [← hS, hbp1, if_pos (show ¬(false = true) by decide),
          if_pos hgate, if_neg hts, if_pos hlfc1, if_pos hlfc2,
          if_neg hterm]
      have htick : tick cfg st =
          { S with
            ax.vel := S.ax.vel * cfg.decel,
            ay.vel := S.ay.vel * cfg.decel } := by
        unfold tick
        rw [heq]
      refine ⟨by rw [heq], ?_, ?_, ?_, ?_⟩
      · rw [htick]
        dsimp only
        rw [hvex]
      · rw [htick]
        dsimp only
        rw [hvey]
      · rw [htick]
        dsimp only
        rw [hsx]
      · rw [htick]
        dsimp only
        rw [hsy]
    · -- both decayed velocities below one: the tick settles
      intro hslow
      have hterm : |S.ax.vel * cfg.decel| < 1 ∧
          |S.ay.vel * cfg.decel| < 1 := by
        rw [hvex, hvey]
        exact hslow
      have heq : hildon_pannable_area_timeout cfg st =
          ⟨{ S with
              ax.vel := 0,
              ay.vel := 0,
              idle_id := false }, false, true⟩ := by
        unfold hildon_pannable_area_timeout
        rw [if_neg hnp]
        dsimp only
        rw [← hS, hbp1, if_pos (show ¬(false = true) by decide),
          if_pos hgate, if_neg hts, if_pos hlfc1, if_pos hlfc2,
          if_pos hterm]
      have htick : tick cfg st =
          { S with
            ax.vel := 0,
            ay.vel := 0,
            idle_id := false } := by
        unfold tick
        rw [heq]
      refine ⟨by rw [heq], by rw [heq], by rw [htick], by rw [htick],
        ?_, ?_⟩
      · rw [htick]
        dsimp only
        rw [hsx]
      · rw [htick]
        dsimp only
        rw [hsy]

/-- C3 witness: a released auto-mode area (decel 1/2, overshoot maxima
10, overshooting cap 60, bounce_steps 3) from value 300 in `[0, 600]`
with velocities 8 and 0: the theorem yields the terminal tick and the
per-tick decel behaviour. -/
theorem timeout_decelerates_to_rest_witness :
    (0 : ℚ) < 1/2 ∧ (1 : ℚ)/2 < 1 ∧
    (∃ k,
      (hildon_pannable_area_timeout
        ⟨true, Mode.auto, true, 1/2, 500, false, false, false, 3, 60,
          10, 10⟩
        ((tick ⟨true, Mode.auto, true, 1/2, 500, false, false, false, 3,
          60, 10, 10⟩)^[k]
          ⟨⟨⟨300, 0, 1000, 400⟩, 8, 0, 0, -1⟩,
           ⟨⟨300, 0, 1000, 400⟩, 0, 0, 0, -1⟩,
           false, 0, 0, 0, 0, true⟩)).ret = false ∧
      (hildon_pannable_area_timeout
        ⟨true, Mode.auto, true, 1/2, 500, false, false, false, 3, 60,
          10, 10⟩
        ((tick ⟨true, Mode.auto, true, 1/2, 500, false, false, false, 3,
          60, 10, 10⟩)^[k]
          ⟨⟨⟨300, 0, 1000, 400⟩, 8, 0, 0, -1⟩,
           ⟨⟨300, 0, 1000, 400⟩, 0, 0, 0, -1⟩,
           false, 0, 0, 0, 0, true⟩)).finished = true ∧
      (hildon_pannable_area_timeout
        ⟨true, Mode.auto, true, 1/2, 500, false, false, false, 3, 60,
          10, 10⟩
        ((tick ⟨true, Mode.auto, true, 1/2, 500, false, false, false, 3,
          60, 10, 10⟩)^[k]
          ⟨⟨⟨300, 0, 1000, 400⟩, 8, 0, 0, -1⟩,
           ⟨⟨300, 0, 1000, 400⟩, 0, 0, 0, -1⟩,
           false, 0, 0, 0, 0, true⟩)).st.ax.vel = 0 ∧
      (hildon_pannable_area_timeout
        ⟨true, Mode.auto, true, 1/2, 500, false, false, false, 3, 60,
          10, 10⟩
        ((tick ⟨true, Mode.auto, true, 1/2, 500, false, false, false, 3,
          60, 10, 10⟩)^[k]
          ⟨⟨⟨300, 0, 1000, 400⟩, 8, 0, 0, -1⟩,
           ⟨⟨300, 0, 1000, 400⟩, 0, 0, 0, -1⟩,
           false, 0, 0, 0, 0, true⟩)).st.ay.vel = 0) :=
  ⟨by norm_num, by norm_num,
   (timeout_decelerates_to_rest
     ⟨true, Mode.auto, true, 1/2, 500, false, false, false, 3, 60,
       10, 10⟩
     ⟨⟨⟨300, 0, 1000, 400⟩, 8, 0, 0, -1⟩,
      ⟨⟨300, 0, 1000, 400⟩, 0, 0, 0, -1⟩,
      false, 0, 0, 0, 0, true⟩
     rfl (by decide) rfl rfl (by norm_num) (by norm_num)
     (by norm_num) (by norm_num) (by norm_num) rfl rfl rfl rfl rfl
     rfl rfl (by norm_num) (by norm_num) (by norm_num)
     (by norm_num)).1⟩

end Hildon
